import Mathlib

/-!
Shallow embedding of the vessel-state reconciliation and geographic query engine of
the `aisnestjs` repository (NestJS + Mongoose), together with proofs of the frozen
claims about it.

Conventions of the embedding:
* JavaScript numbers that carry coordinates, speeds and courses are modelled as `ℚ`
  (exact rationals); epoch-millisecond instants (`Date.getTime()`) are modelled as `Int`.
* The two Mongo collections (`current_vessels`, `vessel_logs`) are modelled as Lean
  lists; `findOne` is `List.find?`, `findOneAndUpdate` with `upsert: true` is a
  replace-or-append operation keyed on `mmsi`, `create` is an append.
* Mongoose drops `undefined` values from `$set` updates, so optional report fields
  that are absent keep the previously stored value; this is the `keepOld` merge below.
* Fallible code (a `throw` in TypeScript) is an `Except` value.
-/

namespace AisNest

open scoped Classical

/-- A position report as accepted by the ingest paths (`CreateVesselDataDto`,
restricted to the fields of the current-vessel schema; extra DTO fields such as
`imo`, `flag` or `dimension` are stripped by the strict Mongoose schema and are
observable by none of the claims). The `timestamp` field holds the value of
`new Date(vesselData.timestamp).getTime()` in epoch milliseconds. -/
structure Report where
  mmsi : Nat
  latitude : ℚ
  longitude : ℚ
  course : ℚ
  speed : ℚ
  heading : Option ℚ
  name : Option String
  callSign : Option String
  vesselType : Nat
  navStatus : Nat
  destination : Option String
  eta : Option String
  timestamp : Int
  length : Option ℚ
  width : Option ℚ
  source : String
  deriving DecidableEq

/-- A row of the `current_vessels` collection (`CurrentVessel` schema). -/
structure CVessel where
  mmsi : Nat
  latitude : ℚ
  longitude : ℚ
  course : ℚ
  speed : ℚ
  heading : Option ℚ
  name : Option String
  callSign : Option String
  vesselType : Nat
  navStatus : Nat
  destination : Option String
  eta : Option String
  timestamp : Int
  length : Option ℚ
  width : Option ℚ
  source : String
  data_time : Option String
  data_date : Option String
  lastUpdated : Int
  updateCount : Nat
  deriving DecidableEq

/-- A row of the `vessel_logs` collection (`VesselLog` schema). -/
structure LogEntry where
  mmsi : Nat
  latitude : ℚ
  longitude : ℚ
  course : ℚ
  speed : ℚ
  heading : Option ℚ
  name : Option String
  callSign : Option String
  vesselType : Nat
  navStatus : Nat
  destination : Option String
  eta : Option String
  timestamp : Int
  length : Option ℚ
  width : Option ℚ
  source : String
  archivedAt : Int
  archiveReason : String
  status : String
  deriving DecidableEq

/-- The database state: the current-state store and the append-only archive store. -/
structure Db where
  current : List CVessel
  logs : List LogEntry
  deriving DecidableEq

/-- Embedding of `archiveVesselToLog(vessel, reason)`: the log document built from the
displaced current row, with `archivedAt = now`, the given reason and `status: archived`. -/
def archiveVesselToLog (vessel : CVessel) (reason : String) (now : Int) : LogEntry :=
  { mmsi := vessel.mmsi
    latitude := vessel.latitude
    longitude := vessel.longitude
    course := vessel.course
    speed := vessel.speed
    heading := vessel.heading
    name := vessel.name
    callSign := vessel.callSign
    vesselType := vessel.vesselType
    navStatus := vessel.navStatus
    destination := vessel.destination
    eta := vessel.eta
    timestamp := vessel.timestamp
    length := vessel.length
    width := vessel.width
    source := vessel.source
    archivedAt := now
    archiveReason := reason
    status := "archived" }

/-- Merge for one optional field of a `$set` update: a present report value wins,
an absent (`undefined`, stripped by Mongoose) value keeps the stored one. -/
def keepOld {α : Type} (newv oldv : Option α) : Option α :=
  match newv with
  | some x => some x
  | none => oldv

/-- The current-vessel row written by `findOneAndUpdate` / `bulkWrite updateOne`
with update `{...vesselData, timestamp, lastUpdated: new Date(), updateCount}` and
`upsert: true`. Fields of the DTO overwrite the stored row; fields absent from the
DTO (`data_time`, `data_date`) and optional fields whose value is `undefined`
persist from the existing row if any. -/
def applyReportSet (r : Report) (now : Int) (existing : Option CVessel)
    (newCount : Nat) : CVessel :=
  { mmsi := r.mmsi
    latitude := r.latitude
    longitude := r.longitude
    course := r.course
    speed := r.speed
    heading := keepOld r.heading (existing.bind (·.heading))
    name := keepOld r.name (existing.bind (·.name))
    callSign := keepOld r.callSign (existing.bind (·.callSign))
    vesselType := r.vesselType
    navStatus := r.navStatus
    destination := keepOld r.destination (existing.bind (·.destination))
    eta := keepOld r.eta (existing.bind (·.eta))
    timestamp := r.timestamp
    length := keepOld r.length (existing.bind (·.length))
    width := keepOld r.width (existing.bind (·.width))
    source := r.source
    data_time := existing.bind (·.data_time)
    data_date := existing.bind (·.data_date)
    lastUpdated := now
    updateCount := newCount }

/-- Replace-or-append semantics of an upsert keyed on the `mmsi` of the new row:
the first row with the same key is replaced in place, otherwise the row is appended. -/
def upsertCurrent : List CVessel → CVessel → List CVessel
  | [], v => [v]
  | c :: cs, v => if c.mmsi = v.mmsi then v :: cs else c :: upsertCurrent cs v

/-- Accumulator of one reconciliation run (`ArchiveResult` without the wall-clock
`duration`; `errors` stays empty because the model has no storage failures). -/
structure RunAcc where
  db : Db
  archivedCount : Nat
  newCurrentCount : Nat
  deriving DecidableEq

/-- Embedding of the per-report body of `updateCurrentVesselData`: look up the
existing row by `mmsi`; if found, append its archive snapshot with reason
`scheduled_update` and bump `archivedCount`; then upsert the current row with
`updateCount` = previous value + 1, or 1 when newly created. -/
def processReport (now : Int) (acc : RunAcc) (r : Report) : RunAcc :=
  match acc.db.current.find? (fun v => v.mmsi == r.mmsi) with
  | some existing =>
      { db :=
          { current :=
              upsertCurrent acc.db.current
                (applyReportSet r now (some existing) (existing.updateCount + 1))
            logs := acc.db.logs ++ [archiveVesselToLog existing "scheduled_update" now] }
        archivedCount := acc.archivedCount + 1
        newCurrentCount := acc.newCurrentCount + 1 }
  | none =>
      { db :=
          { current := upsertCurrent acc.db.current (applyReportSet r now none 1)
            logs := acc.db.logs }
        archivedCount := acc.archivedCount
        newCurrentCount := acc.newCurrentCount + 1 }

/-- Embedding of `updateCurrentVesselData`: the reports are processed strictly in
order. The source walks them in slices of 50 with a 100 ms pause between slices;
the slicing changes no data operation and no order, only timing, so the run is a
single left fold here. `now` stands for the ingest instant. -/
def updateCurrentVesselData (reports : List Report) (now : Int) (db : Db) : RunAcc :=
  reports.foldl (processReport now) { db := db, archivedCount := 0, newCurrentCount := 0 }

/-- Embedding of one `bulkWrite updateOne` operation of `bulkUpsertVessels`:
`$set` of the report fields plus `$inc: updateCount by 1` with `upsert: true`.
`$inc` on an upsert-insert creates the counter at 1 (the schema default 0 is not
applied because the update already touches the field). No archive write happens. -/
def bulkUpsertOne (now : Int) (cur : List CVessel) (r : Report) : List CVessel :=
  match cur.find? (fun v => v.mmsi == r.mmsi) with
  | some existing =>
      upsertCurrent cur (applyReportSet r now (some existing) (existing.updateCount + 1))
  | none => upsertCurrent cur (applyReportSet r now none 1)

/-- Embedding of `bulkUpsertVessels`: one unordered batched upsert over all reports,
skipping the archive step entirely. -/
def bulkUpsertVessels (reports : List Report) (now : Int) (cur : List CVessel) :
    List CVessel :=
  reports.foldl (bulkUpsertOne now) cur

/-- The list of MMSI keys of the current-state store. -/
def mmsis (cur : List CVessel) : List Nat := cur.map (·.mmsi)

/-- Specification-side counter: the number of distinct MMSIs of the report list that
are not in `seen` (the k of the archive count law). -/
def newDistinctCount : List Report → List Nat → Nat
  | [], _ => 0
  | r :: rs, seen => (if r.mmsi ∈ seen then 0 else 1) + newDistinctCount rs (r.mmsi :: seen)

/-- One reconciliation entry point: the single-batch path `updateCurrentVesselData`
or the bulk path `bulkUpsertVessels`, with its batch of reports and ingest instant. -/
inductive ReconcileOp where
  | single (reports : List Report) (now : Int)
  | bulk (reports : List Report) (now : Int)
  deriving DecidableEq

/-- Effect of one reconciliation entry point on the database; the bulk path leaves
the archive store untouched. -/
def applyOp (db : Db) : ReconcileOp → Db
  | .single rs now => (updateCurrentVesselData rs now db).db
  | .bulk rs now => { db with current := bulkUpsertVessels rs now db.current }

/-- A whole history of reconciliations, in call order. -/
def runOps (db : Db) (ops : List ReconcileOp) : Db := ops.foldl applyOp db

/-- Observed `updateCount` of the row with the given MMSI; 0 when the vessel has
never been stored. -/
def updateCountOf (cur : List CVessel) (m : Nat) : Nat :=
  match cur.find? (fun v => v.mmsi == m) with
  | some v => v.updateCount
  | none => 0

/-- Number of reports for the given MMSI carried by one reconciliation call. -/
def opReportCount (m : Nat) : ReconcileOp → Nat
  | .single rs _ => (rs.filter (fun r => r.mmsi == m)).length
  | .bulk rs _ => (rs.filter (fun r => r.mmsi == m)).length

/-- MMSIs mentioned by the reports of one reconciliation call. -/
def opMmsis : ReconcileOp → List Nat
  | .single rs _ => rs.map (·.mmsi)
  | .bulk rs _ => rs.map (·.mmsi)

/-- A well-formed concrete position report used to instantiate theorems with
hypotheses on concrete inputs. -/
def demoReport (m : Nat) (t : Int) : Report :=
  { mmsi := m
    latitude := 1
    longitude := 104
    course := 90
    speed := 10
    heading := none
    name := none
    callSign := none
    vesselType := 70
    navStatus := 0
    destination := none
    eta := none
    timestamp := t
    length := none
    width := none
    source := "telkomsat" }

/-- A concrete two-report reconciliation history over a single MMSI. -/
def demoOps : List ReconcileOp :=
  [ReconcileOp.single [demoReport 123456789 1000, demoReport 123456789 2000] 5000]

/-- Lookup table of `getVesselTypeName`: AIS vessel type code to display name, with
the explicit unknown-code fallback branch. -/
def getVesselTypeName (c : Nat) : String :=
  match c with
  | 0 => "Not available"
  | 30 => "Fishing"
  | 31 => "Towing"
  | 32 => "Towing: length exceeds 200m"
  | 33 => "Dredging or underwater ops"
  | 34 => "Diving ops"
  | 35 => "Military ops"
  | 36 => "Sailing"
  | 37 => "Pleasure Craft"
  | 40 => "High speed craft"
  | 50 => "Pilot Vessel"
  | 51 => "Search and Rescue vessel"
  | 52 => "Tug"
  | 53 => "Port Tender"
  | 54 => "Anti-pollution equipment"
  | 55 => "Law Enforcement"
  | 58 => "Medical Transport"
  | 59 => "Noncombatant ship"
  | 60 => "Passenger"
  | 70 => "Cargo"
  | 80 => "Tanker"
  | 90 => "Other Type"
  | c => "Unknown Type (" ++ toString c ++ ")"

/-- Lookup table of `getNavStatusName`: navigation status code to display name. -/
def getNavStatusName (c : Nat) : String :=
  match c with
  | 0 => "Under way using engine"
  | 1 => "At anchor"
  | 2 => "Not under command"
  | 3 => "Restricted manoeuvrability"
  | 4 => "Constrained by her draught"
  | 5 => "Moored"
  | 6 => "Aground"
  | 7 => "Engaged in Fishing"
  | 8 => "Under way sailing"
  | 11 => "Power-driven vessel towing astern"
  | 12 => "Power-driven vessel pushing ahead"
  | 14 => "AIS-SART is active"
  | 15 => "Not defined (default)"
  | c => "Unknown Status (" ++ toString c ++ ")"

/-- JavaScript `a || d` on an optional string: an absent or empty value falls back
to the default. -/
def strOr (s : Option String) (d : String) : String :=
  match s with
  | some v => if v = "" then d else v
  | none => d

/-- The record produced by `transformVesselLogForExport`. Optional archival fields
are populated only when the input row comes from the archive (the `isVesselLog`
branch of the source); `dataSource` tags the origin collection. -/
structure ExportVessel where
  mmsi : Nat
  name : String
  latitude : ℚ
  longitude : ℚ
  speed : ℚ
  course : ℚ
  heading : ℚ
  vesselType : String
  vesselTypeCode : Nat
  navStatus : String
  navStatusCode : Nat
  callSign : String
  destination : String
  eta : String
  length : ℚ
  width : ℚ
  timestamp : Int
  lastUpdated : Int
  archivedAt : Option Int
  archiveReason : Option String
  status : Option String
  source : String
  dataSource : String
  deriving DecidableEq

/-- Embedding of `transformVesselLogForExport` applied to an archive row: the
`isVesselLog` test is true because `archivedAt` is always set on a log document.
A log row carries no `lastUpdated`, so that field falls back to `timestamp`. -/
def transformVesselLogForExport (e : LogEntry) : ExportVessel :=
  { mmsi := e.mmsi
    name := strOr e.name "Unknown"
    latitude := e.latitude
    longitude := e.longitude
    speed := e.speed
    course := e.course
    heading := e.heading.getD 0
    vesselType := getVesselTypeName e.vesselType
    vesselTypeCode := e.vesselType
    navStatus := getNavStatusName e.navStatus
    navStatusCode := e.navStatus
    callSign := e.callSign.getD ""
    destination := e.destination.getD ""
    eta := e.eta.getD ""
    length := e.length.getD 0
    width := e.width.getD 0
    timestamp := e.timestamp
    lastUpdated := e.timestamp
    archivedAt := some e.archivedAt
    archiveReason := some e.archiveReason
    status := some e.status
    source := if e.source = "" then "telkomsat" else e.source
    dataSource := "archived" }

/-- Embedding of `transformVesselLogForExport` applied to a current row: the
`isVesselLog` test is false because current rows carry no archival metadata. -/
def transformCurrentForExport (v : CVessel) : ExportVessel :=
  { mmsi := v.mmsi
    name := strOr v.name "Unknown"
    latitude := v.latitude
    longitude := v.longitude
    speed := v.speed
    course := v.course
    heading := v.heading.getD 0
    vesselType := getVesselTypeName v.vesselType
    vesselTypeCode := v.vesselType
    navStatus := getNavStatusName v.navStatus
    navStatusCode := v.navStatus
    callSign := v.callSign.getD ""
    destination := v.destination.getD ""
    eta := v.eta.getD ""
    length := v.length.getD 0
    width := v.width.getD 0
    timestamp := v.timestamp
    lastUpdated := v.lastUpdated
    archivedAt := none
    archiveReason := none
    status := none
    source := if v.source = "" then "telkomsat" else v.source
    dataSource := "current" }

/-- Order used by the playback query `sort( timestamp ascending )`. -/
def tsLE (a b : LogEntry) : Prop := a.timestamp ≤ b.timestamp

instance : DecidableRel tsLE := fun a b => inferInstanceAs (Decidable (a.timestamp ≤ b.timestamp))

instance : IsTotal LogEntry tsLE := ⟨fun a b => le_total a.timestamp b.timestamp⟩

instance : IsTrans LogEntry tsLE := ⟨fun _ _ _ hab hbc => le_trans hab hbc⟩

/-- The Mongo filter of `getVesselPlaybackData`: same MMSI, timestamp inside the
inclusive window, and archived status. -/
def logMatchesPlayback (m : Nat) (startDate endDate : Int) (e : LogEntry) : Bool :=
  e.mmsi == m && decide (startDate ≤ e.timestamp) && decide (e.timestamp ≤ endDate)
    && e.status == "archived"

/-- Embedding of the `forEach` sampling loop of `getVesselPlaybackData`: keep a
point when the time difference in minutes since the last kept point reaches the
interval, or when nothing has been kept yet (`sampledLogs.length === 0`, tracked by
the `started` flag); `lastTime` starts at epoch 0. -/
def samplePlaybackGo (intervalMinutes : ℚ) :
    List LogEntry → Int → Bool → List ExportVessel
  | [], _, _ => []
  | e :: es, lastTime, started =>
      if intervalMinutes ≤ ((e.timestamp - lastTime : Int) : ℚ) / (1000 * 60)
          ∨ started = false then
        transformVesselLogForExport e :: samplePlaybackGo intervalMinutes es e.timestamp true
      else samplePlaybackGo intervalMinutes es lastTime started

/-- Embedding of `getVesselPlaybackData`: filter the archive by MMSI, window and
status, sort ascending by timestamp, then either return every point (interval at
most 1) or greedily sample (the source defaults the interval to 5). -/
def getVesselPlaybackData (logs : List LogEntry) (m : Nat)
    (startDate endDate : Int) (intervalMinutes : ℚ) : List ExportVessel :=
  let sorted := List.insertionSort tsLE (logs.filter (logMatchesPlayback m startDate endDate))
  if intervalMinutes ≤ 1 then sorted.map transformVesselLogForExport
  else samplePlaybackGo intervalMinutes sorted 0 false

/-- The minimum-gap relation of the playback sampling claim, in minutes. -/
def playbackGap (m : ℚ) (a b : ExportVessel) : Prop :=
  m ≤ ((b.timestamp - a.timestamp : Int) : ℚ) / (1000 * 60)

/-- A concrete archive row for witnesses. -/
def demoLog (t : Int) : LogEntry :=
  { mmsi := 123456789
    latitude := 1
    longitude := 104
    course := 90
    speed := 10
    heading := none
    name := none
    callSign := none
    vesselType := 70
    navStatus := 0
    destination := none
    eta := none
    timestamp := t
    length := none
    width := none
    source := "telkomsat"
    archivedAt := t
    archiveReason := "scheduled_update"
    status := "archived" }

/-- A concrete archive with gaps of 2, 1 and 7 minutes between consecutive points. -/
def demoLogs : List LogEntry := [demoLog 0, demoLog 120000, demoLog 180000, demoLog 600000]

/-- POI-area query parameters (`QueryPOIAreaDto` / `POIAreaCountDto`). Dates are the
parsed instants; `dataType` and `page` are optional exactly as in the DTO, and the
JavaScript `x || d` defaulting of the source is modelled by `strOr` / `natOr`. -/
structure POIQuery where
  minLongitude : ℚ
  maxLongitude : ℚ
  minLatitude : ℚ
  maxLatitude : ℚ
  startDate : Option Int
  endDate : Option Int
  dataType : Option String
  page : Option Nat
  deriving DecidableEq

/-- The `BadRequestException` outcomes of the POI validation and query endpoints, as
an enumeration of the thrown messages (`areaTooLarge` also interpolates the computed
size in the source text; only the error identity is modelled). -/
inductive PoiError where
  | lonOrder
  | latOrder
  | lonRange
  | latRange
  | dateOrder
  | areaTooLarge
  | service (msg : String)
  deriving DecidableEq

/-- JavaScript `n || d` on an optional number: absent or zero falls back to the
default. -/
def natOr (n : Option Nat) (d : Nat) : Nat :=
  match n with
  | some v => if v = 0 then d else v
  | none => d

/-- The date test of `validatePOIAreaQuery`: true when both dates are present and
the start is not strictly before the end. -/
def dateOrderBad (s e : Option Int) : Bool :=
  match s, e with
  | some sd, some ed => decide (ed ≤ sd)
  | _, _ => false

/-- Embedding of the controller helper `calculateBoundingBoxSize`: the approximate
area in square kilometres, rounded to two decimals. It uses `Math.cos`, so it lives
in ℝ. -/
noncomputable def calculateBoundingBoxSize (minLon maxLon minLat maxLat : ℚ) : ℝ :=
  let lonDiff : ℝ := |(maxLon : ℝ) - (minLon : ℝ)|
  let latDiff : ℝ := |(maxLat : ℝ) - (minLat : ℝ)|
  let lonKm : ℝ := lonDiff * 111.32 * Real.cos (((minLat : ℝ) + (maxLat : ℝ)) / 2 * Real.pi / 180)
  let latKm : ℝ := latDiff * 110.54
  ((round (lonKm * latKm * 100) : ℤ) : ℝ) / 100

/-- Embedding of the controller helper `validatePOIAreaQuery`: the six checks in
source order; the first failing check determines the thrown error. -/
noncomputable def validatePOIAreaQuery (q : POIQuery) : Except PoiError Unit :=
  if q.maxLongitude ≤ q.minLongitude then .error .lonOrder
  else if q.maxLatitude ≤ q.minLatitude then .error .latOrder
  else if q.minLongitude < -180 ∨ 180 < q.maxLongitude then .error .lonRange
  else if q.minLatitude < -90 ∨ 90 < q.maxLatitude then .error .latRange
  else if dateOrderBad q.startDate q.endDate then .error .dateOrder
  else if 1000000 <
      calculateBoundingBoxSize q.minLongitude q.maxLongitude q.minLatitude q.maxLatitude then
    .error .areaTooLarge
  else .ok ()

/-- The Mongo filter built by `buildGeoQuery`: inclusive coordinate ranges plus an
optional timestamp range. -/
structure GeoQuery where
  minLon : ℚ
  maxLon : ℚ
  minLat : ℚ
  maxLat : ℚ
  startDate : Option Int
  endDate : Option Int
  deriving DecidableEq

/-- Embedding of the service helper `buildGeoQuery`. The truthiness test
`!minLongitude || !maxLongitude || !minLatitude || !maxLatitude` rejects not only
missing bounds but also any bound whose value is exactly 0, since the number 0 is
falsy in JavaScript. -/
def buildGeoQuery (q : POIQuery) : Except String GeoQuery :=
  if q.minLongitude = 0 ∨ q.maxLongitude = 0 ∨ q.minLatitude = 0 ∨ q.maxLatitude = 0 then
    .error "All coordinate bounds are required"
  else
    .ok { minLon := q.minLongitude
          maxLon := q.maxLongitude
          minLat := q.minLatitude
          maxLat := q.maxLatitude
          startDate := q.startDate
          endDate := q.endDate }

/-- Timestamp part of the geo filter. -/
def inDateRange (g : GeoQuery) (t : Int) : Bool :=
  (match g.startDate with
   | some s => decide (s ≤ t)
   | none => true)
  && match g.endDate with
     | some e => decide (t ≤ e)
     | none => true

/-- A current row matches the geo filter. -/
def geoMatchesCurrent (g : GeoQuery) (v : CVessel) : Bool :=
  decide (g.minLon ≤ v.longitude) && decide (v.longitude ≤ g.maxLon)
    && decide (g.minLat ≤ v.latitude) && decide (v.latitude ≤ g.maxLat)
    && inDateRange g v.timestamp

/-- An archive row matches the geo filter. -/
def geoMatchesLog (g : GeoQuery) (e : LogEntry) : Bool :=
  decide (g.minLon ≤ e.longitude) && decide (e.longitude ≤ g.maxLon)
    && decide (g.minLat ≤ e.latitude) && decide (e.latitude ≤ g.maxLat)
    && inDateRange g e.timestamp

/-- The archived-side filter used throughout the service: geo match plus
`status: archived`. -/
def geoMatchesArchived (g : GeoQuery) (e : LogEntry) : Bool :=
  geoMatchesLog g e && e.status == "archived"

/-- Embedding of the service helper `calculateAreaSize`: same formula as the
controller helper but guarded by the same falsy test as `buildGeoQuery`, so any
bound equal to 0 yields area 0. -/
noncomputable def calculateAreaSize (minLon maxLon minLat maxLat : ℚ) : ℝ :=
  if minLon = 0 ∨ maxLon = 0 ∨ minLat = 0 ∨ maxLat = 0 then 0
  else
    let lonDiff : ℝ := |(maxLon : ℝ) - (minLon : ℝ)|
    let latDiff : ℝ := |(maxLat : ℝ) - (minLat : ℝ)|
    let lonKm : ℝ :=
      lonDiff * 111.32 * Real.cos (((minLat : ℝ) + (maxLat : ℝ)) / 2 * Real.pi / 180)
    let latKm : ℝ := latDiff * 110.54
    ((round (lonKm * latKm * 100) : ℤ) : ℝ) / 100

/-- Result of `calculateAreaStatistics` (the wall-clock-independent fields). The
source renders `areaSize` as a string with a unit suffix; the number is modelled.
Lean division by zero is 0 where JavaScript would produce Infinity; no claim
observes the density. -/
structure AreaStatistics where
  totalVessels : Nat
  areaSize : ℝ
  density : ℝ
  minLongitude : ℚ
  maxLongitude : ℚ
  minLatitude : ℚ
  maxLatitude : ℚ
  dataType : String
  startDate : Option Int
  endDate : Option Int

/-- Embedding of `calculateAreaStatistics`. -/
noncomputable def calculateAreaStatistics (q : POIQuery) (totalCount : Nat)
    (dataType : String) : AreaStatistics :=
  let areaKm2 :=
    calculateAreaSize q.minLongitude q.maxLongitude q.minLatitude q.maxLatitude
  { totalVessels := totalCount
    areaSize := areaKm2
    density :=
      if 0 < totalCount then ((round ((totalCount : ℝ) / areaKm2 * 100) : ℤ) : ℝ) / 100
      else 0
    minLongitude := q.minLongitude
    maxLongitude := q.maxLongitude
    minLatitude := q.minLatitude
    maxLatitude := q.maxLatitude
    dataType := dataType
    startDate := q.startDate
    endDate := q.endDate }

/-- The `dataBreakdown` object of `getPOIAreaTotalCount`. -/
structure DataBreakdown where
  currentVessels : Nat
  archivedVessels : Nat
  totalUnique : Nat
  deriving DecidableEq

/-- Result of `getPOIAreaTotalCount`. -/
structure CountResult where
  totalCount : Nat
  totalPages : Nat
  estimatedTime : ℚ
  dataBreakdown : DataBreakdown
  deriving DecidableEq

/-- Embedding of `getUniqueMMSIsInArea`: distinct MMSIs per data type; for `all`
the union of both distinct sets. Mongo returns the distinct values in an
unspecified order; only the cardinality is observed, so `List.dedup` stands in. -/
def getUniqueMMSIsInArea (g : GeoQuery) (dataType : String) (db : Db) : List Nat :=
  if dataType = "vessel" then
    ((db.current.filter (geoMatchesCurrent g)).map (·.mmsi)).dedup
  else if dataType = "track" ∨ dataType = "ais" then
    ((db.logs.filter (geoMatchesArchived g)).map (·.mmsi)).dedup
  else if dataType = "all" then
    (((db.current.filter (geoMatchesCurrent g)).map (·.mmsi))
      ++ ((db.logs.filter (geoMatchesArchived g)).map (·.mmsi))).dedup
  else ((db.current.filter (geoMatchesCurrent g)).map (·.mmsi)).dedup

/-- Embedding of `getPOIAreaTotalCount`: counts per data type, unique-vessel count
when the total is positive, page count at a fixed page size of 100, and the
estimated time `ceil(totalCount / 100) * 0.5`. -/
def getPOIAreaTotalCount (q : POIQuery) (db : Db) : Except String CountResult :=
  match buildGeoQuery q with
  | .error e => .error e
  | .ok g =>
      let dataType := strOr q.dataType "vessel"
      let currentCount := (db.current.filter (geoMatchesCurrent g)).length
      let archivedCount := (db.logs.filter (geoMatchesArchived g)).length
      let counts : Nat × Nat :=
        if dataType = "vessel" then (currentCount, 0)
        else if dataType = "track" ∨ dataType = "ais" then (0, archivedCount)
        else if dataType = "all" then (currentCount, archivedCount)
        else (currentCount, 0)
      let totalCount :=
        if dataType = "vessel" then currentCount
        else if dataType = "track" ∨ dataType = "ais" then archivedCount
        else if dataType = "all" then currentCount + archivedCount
        else currentCount
      let totalUnique :=
        if 0 < totalCount then (getUniqueMMSIsInArea g dataType db).length else 0
      let totalPages := (totalCount + 99) / 100
      let estimatedTime : ℚ := (((totalCount + 99) / 100 : Nat) : ℚ) * (1 / 2)
      .ok { totalCount := totalCount
            totalPages := totalPages
            estimatedTime := estimatedTime
            dataBreakdown :=
              { currentVessels := counts.1
                archivedVessels := counts.2
                totalUnique := totalUnique } }

/-- Order used by `sort( lastUpdated descending )` on current rows. -/
def luGE (a b : CVessel) : Prop := b.lastUpdated ≤ a.lastUpdated

instance : DecidableRel luGE := fun a b => inferInstanceAs (Decidable (b.lastUpdated ≤ a.lastUpdated))

instance : IsTotal CVessel luGE := ⟨fun a b => le_total b.lastUpdated a.lastUpdated⟩

instance : IsTrans CVessel luGE := ⟨fun _ _ _ hab hbc => le_trans hbc hab⟩

/-- Order used by `sort( timestamp descending )` on archive rows. -/
def tsGE (a b : LogEntry) : Prop := b.timestamp ≤ a.timestamp

instance : DecidableRel tsGE := fun a b => inferInstanceAs (Decidable (b.timestamp ≤ a.timestamp))

instance : IsTotal LogEntry tsGE := ⟨fun a b => le_total b.timestamp a.timestamp⟩

instance : IsTrans LogEntry tsGE := ⟨fun _ _ _ hab hbc => le_trans hbc hab⟩

/-- Order used by `sort( archivedAt descending )` on archive rows. -/
def aaGE (a b : LogEntry) : Prop := b.archivedAt ≤ a.archivedAt

instance : DecidableRel aaGE := fun a b => inferInstanceAs (Decidable (b.archivedAt ≤ a.archivedAt))

instance : IsTotal LogEntry aaGE := ⟨fun a b => le_total b.archivedAt a.archivedAt⟩

instance : IsTrans LogEntry aaGE := ⟨fun _ _ _ hab hbc => le_trans hbc hab⟩

/-- Pagination metadata of a POI-area page. -/
structure Pagination where
  page : Nat
  pageSize : Nat
  totalCount : Nat
  totalPages : Nat
  hasNextPage : Bool
  hasPrevPage : Bool
  currentPageCount : Nat
  deriving DecidableEq

/-- Result of `getVesselsByPOIArea` (without the wall-clock `processingTime` and the
`exportData` repackaging, which no claim observes). -/
structure PageResult where
  vessels : List ExportVessel
  pagination : Pagination
  statistics : AreaStatistics

/-- Embedding of `getVesselsByPOIArea`: fixed page size 100; per data type the page
is drawn from the sorted matching rows with skip and limit; for `all` the page is
half a page of current rows (by `lastUpdated` descending) concatenated with half a
page of archived rows (by `timestamp` descending), each skipped by `floor(skip/2)`,
and the total is the sum of both counts. -/
noncomputable def getVesselsByPOIArea (q : POIQuery) (db : Db) : Except String PageResult :=
  let pageSize := 100
  let page := natOr q.page 1
  let skip := (page - 1) * pageSize
  let dataType := strOr q.dataType "vessel"
  match buildGeoQuery q with
  | .error e => .error e
  | .ok g =>
      let currentMatches := db.current.filter (geoMatchesCurrent g)
      let archivedMatches := db.logs.filter (geoMatchesArchived g)
      let pair : List ExportVessel × Nat :=
        if dataType = "vessel" then
          ((((List.insertionSort luGE currentMatches).drop skip).take pageSize).map
              transformCurrentForExport,
            currentMatches.length)
        else if dataType = "track" then
          ((((List.insertionSort tsGE archivedMatches).drop skip).take pageSize).map
              transformVesselLogForExport,
            archivedMatches.length)
        else if dataType = "ais" then
          ((((List.insertionSort aaGE archivedMatches).drop skip).take pageSize).map
              transformVesselLogForExport,
            archivedMatches.length)
        else if dataType = "all" then
          let halfPageSize := pageSize / 2
          (((((List.insertionSort luGE currentMatches).drop (skip / 2)).take halfPageSize).map
              transformCurrentForExport)
            ++ ((((List.insertionSort tsGE archivedMatches).drop (skip / 2)).take
                halfPageSize).map transformVesselLogForExport),
            currentMatches.length + archivedMatches.length)
        else
          ((((List.insertionSort luGE currentMatches).drop skip).take pageSize).map
              transformCurrentForExport,
            currentMatches.length)
      let totalPages := (pair.2 + 99) / 100
      .ok { vessels := pair.1
            pagination :=
              { page := page
                pageSize := pageSize
                totalCount := pair.2
                totalPages := totalPages
                hasNextPage := decide (page < totalPages)
                hasPrevPage := decide (1 < page)
                currentPageCount := pair.1.length }
            statistics := calculateAreaStatistics q pair.2 dataType }

/-- Result of `getAllPOIAreaData` (without wall-clock fields). -/
structure AllResult where
  vessels : List ExportVessel
  totalFetched : Nat
  expectedTotal : Nat
  totalPages : Nat
  errors : List String
  isComplete : Bool

/-- Embedding of `getAllPOIAreaData`: default the data type, take the total count,
then fetch pages 1..totalPages sequentially, accumulating page vessels and per-page
errors; `isComplete` holds when no page failed. -/
noncomputable def getAllPOIAreaData (q : POIQuery) (db : Db) : Except String AllResult :=
  let safeQuery : POIQuery := { q with dataType := some (strOr q.dataType "vessel") }
  match getPOIAreaTotalCount safeQuery db with
  | .error e => .error e
  | .ok countInfo =>
      let pages := (List.range countInfo.totalPages).map (· + 1)
      let fetched :=
        pages.foldl
          (fun acc page =>
            match getVesselsByPOIArea { safeQuery with page := some page } db with
            | .ok pr => (acc.1 ++ pr.vessels, acc.2)
            | .error e => (acc.1, acc.2 ++ ["Page " ++ toString page ++ " failed: " ++ e]))
          (([] : List ExportVessel), ([] : List String))
      .ok { vessels := fetched.1
            totalFetched := fetched.1.length
            expectedTotal := countInfo.totalCount
            totalPages := countInfo.totalPages
            errors := fetched.2
            isComplete := decide (fetched.2.length = 0) }

/-- Embedding of the controller route `GET poi-area/count`: default the data type,
validate, and only then call the service; a validation failure is rethrown before
any storage access. -/
noncomputable def getPOIAreaCountEndpoint (q : POIQuery) (db : Db) :
    Except PoiError CountResult :=
  let safeQuery : POIQuery := { q with dataType := some (strOr q.dataType "vessel") }
  match validatePOIAreaQuery safeQuery with
  | .error e => .error e
  | .ok _ =>
      match getPOIAreaTotalCount safeQuery db with
      | .error m => .error (.service m)
      | .ok r => .ok r

/-- The whole-globe bounding box of the area-too-large scenario. -/
def globeQuery : POIQuery :=
  { minLongitude := -180
    maxLongitude := 180
    minLatitude := -90
    maxLatitude := 90
    startDate := none
    endDate := none
    dataType := none
    page := none }

/-- The degenerate bounding box with equal longitudes of the rejection scenario. -/
def eqLonQuery : POIQuery :=
  { minLongitude := 10
    maxLongitude := 10
    minLatitude := -5
    maxLatitude := 5
    startDate := none
    endDate := none
    dataType := none
    page := none }

/-- A bounding box whose southern edge is the equator. -/
def zeroLatQuery : POIQuery :=
  { minLongitude := 100
    maxLongitude := 110
    minLatitude := 0
    maxLatitude := 5
    startDate := none
    endDate := none
    dataType := none
    page := none }

/-- The geo filter that `buildGeoQuery` returns on success. -/
def mkGeo (q : POIQuery) : GeoQuery :=
  { minLon := q.minLongitude
    maxLon := q.maxLongitude
    minLat := q.minLatitude
    maxLat := q.maxLatitude
    startDate := q.startDate
    endDate := q.endDate }

/-- A POI-area query over a box away from the zero meridian and equator, asking for
the combined data type. -/
def demoPoiQuery : POIQuery :=
  { minLongitude := 103
    maxLongitude := 105
    minLatitude := 1
    maxLatitude := 2
    startDate := none
    endDate := none
    dataType := some "all"
    page := none }

/-- A concrete current-vessel row at the given position. -/
def demoCVessel (m : Nat) (lon lat : ℚ) : CVessel :=
  { mmsi := m
    latitude := lat
    longitude := lon
    course := 90
    speed := 10
    heading := none
    name := none
    callSign := none
    vesselType := 70
    navStatus := 0
    destination := none
    eta := none
    timestamp := 0
    length := none
    width := none
    source := "telkomsat"
    data_time := none
    data_date := none
    lastUpdated := 0
    updateCount := 1 }

/-- A database holding exactly three current vessels inside the demo box and no
archived rows. -/
def demoPoiDb : Db :=
  { current := [demoCVessel 1 104 1, demoCVessel 2 103 2, demoCVessel 3 105 1]
    logs := [] }

/-- Result record of one collector run (`CollectionResult` without wall-clock and
broadcast-presence fields). -/
structure CollectionResult where
  collected : Nat
  stored : Nat
  errors : List String
  deriving DecidableEq

/-- State-machine embedding of `collectAndStoreVessels`: the `isCollecting`
single-flight guard around the collection body. The upstream fetch and the
reconciliation are abstracted by the outcome of the body, which is a parameter;
the `finally` clause clears the flag whatever that outcome is. A call made while
the flag is set throws immediately, leaves the flag untouched, and never runs the
body (the returned pair is the outcome together with the flag afterwards). -/
def collectAndStoreVessels (isCollecting : Bool)
    (body : Except String CollectionResult) :
    Except String CollectionResult × Bool :=
  if isCollecting then (Except.error "Collection already in progress", isCollecting)
  else (body, false)

/-- State-machine embedding of `forceAggressiveCollection`: the same single-flight
guard and `finally` clause around the aggressive five-way collection body. -/
def forceAggressiveCollection (isCollecting : Bool)
    (body : Except String CollectionResult) :
    Except String CollectionResult × Bool :=
  if isCollecting then (Except.error "Collection already in progress", isCollecting)
  else (body, false)

/-- Short update window of the gateway: 1 minute in milliseconds. -/
def UPDATE_DATA_AGE_MS : Int := 1 * 60 * 1000

/-- Long initial window of the gateway: 24 hours in milliseconds. -/
def INITIAL_DATA_AGE_MS : Int := 24 * 60 * 60 * 1000

/-- A vessel as seen by the gateway age check: the `data_date`/`data_time` pair and
the `timestamp` field, each either absent (outer `none`) or carrying the result of
`new Date(...)` (inner `none` is an invalid date, `NaN`). Only the identity and the
two time fields are observed by the gateway logic. -/
structure BVessel where
  mmsi : Nat
  dataDateTime : Option (Option Int)
  timestampField : Option (Option Int)
  deriving DecidableEq

/-- The date source selected by `checkVesselAge` and `getVesselDateTime`: the
`data_date`/`data_time` pair when present (even if it fails to parse), otherwise
the `timestamp` field, otherwise nothing. -/
def chosenDate (v : BVessel) : Option (Option Int) :=
  match v.dataDateTime with
  | some d => some d
  | none => v.timestampField

/-- Embedding of `checkVesselAge`: no usable field or an unparseable date excludes
the vessel; a negative age (future data) excludes it; otherwise the age must be
within the window. The function is total: the source wraps the body in try/catch
and returns false on any failure. -/
def checkVesselAge (now : Int) (v : BVessel) (maxAgeMs : Int) : Bool :=
  match chosenDate v with
  | none => false
  | some none => false
  | some (some t) =>
      if now - t < 0 then false else decide (now - t ≤ maxAgeMs)

/-- Freshness for delta updates: age within 1 minute. -/
def isVesselFreshForUpdate (now : Int) (v : BVessel) : Bool :=
  checkVesselAge now v UPDATE_DATA_AGE_MS

/-- Freshness for the initial snapshot: age within 24 hours. -/
def isVesselFreshForInitial (now : Int) (v : BVessel) : Bool :=
  checkVesselAge now v INITIAL_DATA_AGE_MS

/-- Embedding of `getVesselDateTime` restricted to the rows it is applied to: for a
parseable chosen date its instant, and epoch 0 when no field is present. For a
present-but-unparseable value the source comparator would see `NaN`; the gateway
only sorts lists that already passed a freshness filter, where the chosen date
parses, so the 0 placeholder of that branch is unobservable. -/
def getVesselDateTimeMs (v : BVessel) : Int :=
  match chosenDate v with
  | some (some t) => t
  | some none => 0
  | none => 0

/-- Order used by the newest-first sort of the update payload. -/
def bvGE (a b : BVessel) : Prop := getVesselDateTimeMs b ≤ getVesselDateTimeMs a

instance : DecidableRel bvGE :=
  fun a b => inferInstanceAs (Decidable (getVesselDateTimeMs b ≤ getVesselDateTimeMs a))

instance : IsTotal BVessel bvGE := ⟨fun a b => le_total (getVesselDateTimeMs b) (getVesselDateTimeMs a)⟩

instance : IsTrans BVessel bvGE := ⟨fun _ _ _ hab hbc => le_trans hbc hab⟩

/-- The delta-update message (`vessel_update` payload restricted to its
data-dependent fields). -/
structure UpdatePayload where
  count : Nat
  totalProcessed : Nat
  vessels : List BVessel
  deriving DecidableEq

/-- Embedding of `broadcastVesselUpdate`: nothing is emitted for an empty input or
when no vessel is inside the 1-minute window (a silent skip); otherwise the fresh
subset is emitted, sorted newest first. -/
def broadcastVesselUpdate (now : Int) (vessels : List BVessel) : Option UpdatePayload :=
  if vessels.isEmpty then none
  else
    let recent := vessels.filter (fun v => isVesselFreshForUpdate now v)
    if recent.isEmpty then none
    else
      let sorted := List.insertionSort bvGE recent
      some { count := sorted.length, totalProcessed := vessels.length, vessels := sorted }

/-- A vessel whose timestamp field parses to the given instant. -/
def demoBV (m : Nat) (t : Int) : BVessel :=
  { mmsi := m, dataDateTime := none, timestampField := some (some t) }

/-- A vessel whose `data_date`/`data_time` pair is present but does not parse. -/
def demoBVBad : BVessel :=
  { mmsi := 9, dataDateTime := some none, timestampField := none }

/-- One fresh vessel, one stale vessel, one unparseable vessel and one vessel with
a future timestamp, observed at instant 100000. -/
def demoBVs : List BVessel :=
  [demoBV 1 70000, demoBV 2 0, demoBVBad, demoBV 4 200000]

/-- A processed upstream vessel (`ProcessedVessel`) restricted to the fields the
deduplication observes, with position payload riding along; the collector-only
metadata (imo, flag, class tag, dimension block) is observed by no claim and
omitted. The raw timestamp is the string of the upstream feed; JavaScript compares
such strings lexicographically, which is the order on the character list here. -/
structure PVessel where
  mmsi : Nat
  latitude : ℚ
  longitude : ℚ
  timestamp : String
  deriving DecidableEq

/-- The lexicographic string order used by `v.timestamp > existing.timestamp`. -/
def tsLt (a b : String) : Prop := a.data < b.data

instance : DecidableRel tsLt := fun a b => inferInstanceAs (Decidable (a.data < b.data))

/-- Lookup in the insertion-ordered map (JavaScript `Map.get`). -/
def mapGet : List (Nat × PVessel) → Nat → Option PVessel
  | [], _ => none
  | p :: ps, k => if p.1 = k then some p.2 else mapGet ps k

/-- Update in the insertion-ordered map (JavaScript `Map.set`): an existing key
keeps its position, a fresh key is appended. -/
def mapSet : List (Nat × PVessel) → Nat → PVessel → List (Nat × PVessel)
  | [], k, v => [(k, v)]
  | p :: ps, k, v => if p.1 = k then (k, v) :: ps else p :: mapSet ps k v

/-- One step of the Map-based deduplication shared by `deduplicateVessels` in the
client and the aggressive collection in the collector: insert a fresh key, and on a
collision keep the incumbent unless the new timestamp is strictly later. -/
def dedupStep (m : List (Nat × PVessel)) (v : PVessel) : List (Nat × PVessel) :=
  match mapGet m v.mmsi with
  | none => mapSet m v.mmsi v
  | some existing => if tsLt existing.timestamp v.timestamp then mapSet m v.mmsi v else m

/-- Embedding of `deduplicateVessels` (client): vessels with a falsy or non-positive
MMSI are skipped by the guard, the rest go through the timestamp-priority map, and
the output is the map values in insertion order. -/
def deduplicateVessels (vessels : List PVessel) : List PVessel :=
  (vessels.foldl (fun m v => if 0 < v.mmsi then dedupStep m v else m) []).map Prod.snd

/-- Embedding of the inline deduplication of `forceAggressiveCollection`
(collector): the same map logic without the MMSI guard
(`!existing || vessel.timestamp > existing.timestamp`). -/
def dedupAggressive (vessels : List PVessel) : List PVessel :=
  (vessels.foldl dedupStep []).map Prod.snd

/-- The report with the later timestamp of the demo pair. -/
def demoPVLater : PVessel :=
  { mmsi := 5, latitude := 2, longitude := 105, timestamp := "2025-01-02 00:00:00" }

/-- Two upstream reports for one MMSI with different timestamps, later one second. -/
def demoPVs : List PVessel :=
  [{ mmsi := 5, latitude := 1, longitude := 104, timestamp := "2025-01-01 00:00:00" },
   demoPVLater]

/-- Invariant of the deduplication map after processing the given prefix: keys are
unique, each entry sits under its own MMSI, comes from the processed input, and is
not older than any processed report with the same MMSI; and every processed report
has its MMSI present in the map. -/
def DedupInv (processed : List PVessel) (m : List (Nat × PVessel)) : Prop :=
  (m.map Prod.fst).Nodup
  ∧ (∀ p ∈ m, p.2.mmsi = p.1 ∧ p.2 ∈ processed
      ∧ ∀ w ∈ processed, w.mmsi = p.1 → ¬ tsLt p.2.timestamp w.timestamp)
  ∧ ∀ w ∈ processed, w.mmsi ∈ m.map Prod.fst

lemma applyReportSet_mmsi (r : Report) (now : Int) (ex : Option CVessel) (c : Nat) :
    (applyReportSet r now ex c).mmsi = r.mmsi := rfl

lemma applyReportSet_updateCount (r : Report) (now : Int) (ex : Option CVessel) (c : Nat) :
    (applyReportSet r now ex c).updateCount = c := rfl

lemma mem_mmsis_upsert (cur : List CVessel) (v : CVessel) (x : Nat) :
    x ∈ mmsis (upsertCurrent cur v) ↔ x = v.mmsi ∨ x ∈ mmsis cur := by
  induction cur with
  | nil => simp [upsertCurrent, mmsis]
  | cons c cs ih =>
      by_cases h : c.mmsi = v.mmsi
      · simp only [upsertCurrent, if_pos h, mmsis, List.map_cons, List.mem_cons]
        rw [← h]
        tauto
      · simp only [upsertCurrent, if_neg h, mmsis, List.map_cons, List.mem_cons]
        rw [show (List.map (fun w => w.mmsi) (upsertCurrent cs v) : List Nat)
              = mmsis (upsertCurrent cs v) from rfl, ih]
        simp only [mmsis]
        tauto

lemma find?_mmsi_eq_none {cur : List CVessel} {m : Nat} :
    cur.find? (fun v => v.mmsi == m) = none ↔ m ∉ mmsis cur := by
  rw [List.find?_eq_none]
  simp only [mmsis, List.mem_map, beq_iff_eq]
  aesop

lemma mem_of_find?_mmsi_some {cur : List CVessel} {m : Nat} {v : CVessel}
    (h : cur.find? (fun v => v.mmsi == m) = some v) : m ∈ mmsis cur := by
  have hv := List.find?_some h
  have hmem := List.mem_of_find?_eq_some h
  simp only [beq_iff_eq] at hv
  exact hv ▸ List.mem_map_of_mem (·.mmsi) hmem

lemma newDistinctCount_congr :
    ∀ (rs : List Report) (s₁ s₂ : List Nat), (∀ x, x ∈ s₁ ↔ x ∈ s₂) →
      newDistinctCount rs s₁ = newDistinctCount rs s₂ := by
  intro rs
  induction rs with
  | nil => intro s₁ s₂ _; rfl
  | cons r rs ih =>
      intro s₁ s₂ h
      simp only [newDistinctCount]
      rw [ih (r.mmsi :: s₁) (r.mmsi :: s₂) (by intro x; simp [h x])]
      by_cases hm : r.mmsi ∈ s₁
      · rw [if_pos hm, if_pos ((h r.mmsi).1 hm)]
      · rw [if_neg hm, if_neg (fun hc => hm ((h r.mmsi).2 hc))]

lemma processReport_mmsis_mem (now : Int) (acc : RunAcc) (r : Report) (x : Nat) :
    x ∈ mmsis (processReport now acc r).db.current ↔
      x = r.mmsi ∨ x ∈ mmsis acc.db.current := by
  cases h : acc.db.current.find? (fun v => v.mmsi == r.mmsi) with
  | some existing =>
      simp only [processReport, h]
      rw [mem_mmsis_upsert, applyReportSet_mmsi]
  | none =>
      simp only [processReport, h]
      rw [mem_mmsis_upsert, applyReportSet_mmsi]

lemma processReport_archivedCount (now : Int) (acc : RunAcc) (r : Report) :
    (processReport now acc r).archivedCount =
      acc.archivedCount + (if r.mmsi ∈ mmsis acc.db.current then 1 else 0) := by
  cases h : acc.db.current.find? (fun v => v.mmsi == r.mmsi) with
  | some existing =>
      simp only [processReport, h]
      rw [if_pos (mem_of_find?_mmsi_some h)]
  | none =>
      simp only [processReport, h]
      rw [if_neg (find?_mmsi_eq_none.mp h), Nat.add_zero]

lemma foldl_archive_law (now : Int) :
    ∀ (reports : List Report) (acc : RunAcc),
      (reports.foldl (processReport now) acc).archivedCount
          + newDistinctCount reports (mmsis acc.db.current)
        = acc.archivedCount + reports.length := by
  intro reports
  induction reports with
  | nil => intro acc; simp [newDistinctCount]
  | cons r rs ih =>
      intro acc
      have hcongr : newDistinctCount rs (mmsis (processReport now acc r).db.current)
          = newDistinctCount rs (r.mmsi :: mmsis acc.db.current) :=
        newDistinctCount_congr rs _ _ (by
          intro x
          rw [processReport_mmsis_mem]
          simp)
      have hstep := processReport_archivedCount now acc r
      have := ih (processReport now acc r)
      rw [hcongr] at this
      simp only [List.foldl_cons, newDistinctCount, List.length_cons]
      by_cases hm : r.mmsi ∈ mmsis acc.db.current
      · rw [if_pos hm] at hstep ⊢
        omega
      · rw [if_neg hm] at hstep ⊢
        omega

lemma foldl_logs_law (now : Int) :
    ∀ (reports : List Report) (acc : RunAcc),
      ∃ extra : List LogEntry,
        (reports.foldl (processReport now) acc).db.logs = acc.db.logs ++ extra ∧
        acc.archivedCount + extra.length
          = (reports.foldl (processReport now) acc).archivedCount ∧
        ∀ e ∈ extra, e.archiveReason = "scheduled_update" ∧ e.status = "archived" := by
  intro reports
  induction reports with
  | nil => intro acc; exact ⟨[], by simp⟩
  | cons r rs ih =>
      intro acc
      obtain ⟨extra, hlogs, hlen, hprops⟩ := ih (processReport now acc r)
      simp only [List.foldl_cons]
      cases h : acc.db.current.find? (fun v => v.mmsi == r.mmsi) with
      | some existing =>
          simp only [processReport, h] at hlogs hlen ⊢
          refine ⟨archiveVesselToLog existing "scheduled_update" now :: extra, ?_, ?_, ?_⟩
          · rw [hlogs]
            simp
          · simp only [List.length_cons]
            omega
          · intro e he
            rcases List.mem_cons.mp he with he | he
            · subst he; exact ⟨rfl, rfl⟩
            · exact hprops e he
      | none =>
          simp only [processReport, h] at hlogs hlen ⊢
          exact ⟨extra, hlogs, hlen, hprops⟩

/-- C1: in a failure-free run of `updateCurrentVesselData` over N reports,
a `VesselLogEntry` with reason `scheduled_update` and status `archived` is appended
exactly once per report that displaces an existing current row and never for a
first-ever sighting, and with k distinct never-before-seen MMSIs in the batch the
returned `archivedCount` is N - k. -/
theorem updateCurrentVesselData_archive_law (reports : List Report) (now : Int) (db : Db) :
    (updateCurrentVesselData reports now db).archivedCount
        = reports.length - newDistinctCount reports (mmsis db.current)
    ∧ (updateCurrentVesselData reports now db).db.logs.length
        = db.logs.length + (updateCurrentVesselData reports now db).archivedCount
    ∧ (∀ e ∈ (updateCurrentVesselData reports now db).db.logs.drop db.logs.length,
        e.archiveReason = "scheduled_update" ∧ e.status = "archived")
    ∧ ∀ (acc : RunAcc) (r : Report),
        (processReport now acc r).archivedCount =
          acc.archivedCount + (if r.mmsi ∈ mmsis acc.db.current then 1 else 0) := by
  have harch := foldl_archive_law now reports
    { db := db, archivedCount := 0, newCurrentCount := 0 }
  obtain ⟨extra, hlogs, hlen, hprops⟩ := foldl_logs_law now reports
    { db := db, archivedCount := 0, newCurrentCount := 0 }
  dsimp only at harch hlogs hlen
  refine ⟨?_, ?_, ?_, fun acc r => processReport_archivedCount now acc r⟩
  · simp only [updateCurrentVesselData]
    omega
  · simp only [updateCurrentVesselData]
    rw [hlogs]
    simp only [List.length_append]
    omega
  · intro e he
    simp only [updateCurrentVesselData] at he
    rw [hlogs, List.drop_left] at he
    exact hprops e he

lemma find?_upsert_self (cur : List CVessel) (v : CVessel) :
    (upsertCurrent cur v).find? (fun w => w.mmsi == v.mmsi) = some v := by
  induction cur with
  | nil => simp [upsertCurrent]
  | cons c cs ih =>
      by_cases h : c.mmsi = v.mmsi
      · simp [upsertCurrent, if_pos h]
      · rw [upsertCurrent, if_neg h, List.find?_cons_of_neg _ (by simp [h])]
        exact ih

lemma find?_upsert_other (cur : List CVessel) (v : CVessel) (m : Nat) (h : m ≠ v.mmsi) :
    (upsertCurrent cur v).find? (fun w => w.mmsi == m)
      = cur.find? (fun w => w.mmsi == m) := by
  induction cur with
  | nil =>
      rw [upsertCurrent, List.find?_cons_of_neg _ (by simp; exact fun hc => h hc.symm),
        List.find?_nil]
  | cons c cs ih =>
      by_cases hc : c.mmsi = v.mmsi
      · rw [upsertCurrent, if_pos hc,
          List.find?_cons_of_neg _ (by simp; exact fun hv => h hv.symm),
          List.find?_cons_of_neg _ (by simp [hc]; exact fun hv => h hv.symm)]
      · by_cases hm : c.mmsi = m
        · rw [upsertCurrent, if_neg hc, List.find?_cons_of_pos _ (by simp [hm]),
            List.find?_cons_of_pos _ (by simp [hm])]
        · rw [upsertCurrent, if_neg hc, List.find?_cons_of_neg _ (by simp [hm]),
            List.find?_cons_of_neg _ (by simp [hm])]
          exact ih

lemma updateCountOf_upsert_self (cur : List CVessel) (v : CVessel) :
    updateCountOf (upsertCurrent cur v) v.mmsi = v.updateCount := by
  simp only [updateCountOf, find?_upsert_self]

lemma updateCountOf_upsert_other (cur : List CVessel) (v : CVessel) (m : Nat)
    (h : m ≠ v.mmsi) : updateCountOf (upsertCurrent cur v) m = updateCountOf cur m := by
  simp only [updateCountOf, find?_upsert_other cur v m h]

lemma updateCountOf_of_find?_some {cur : List CVessel} {m : Nat} {v : CVessel}
    (h : cur.find? (fun w => w.mmsi == m) = some v) : updateCountOf cur m = v.updateCount := by
  simp only [updateCountOf, h]

lemma updateCountOf_of_find?_none {cur : List CVessel} {m : Nat}
    (h : cur.find? (fun w => w.mmsi == m) = none) : updateCountOf cur m = 0 := by
  simp only [updateCountOf, h]

lemma processReport_updateCountOf (now : Int) (acc : RunAcc) (r : Report) (m : Nat) :
    updateCountOf (processReport now acc r).db.current m
      = updateCountOf acc.db.current m + (if r.mmsi = m then 1 else 0) := by
  cases h : acc.db.current.find? (fun v => v.mmsi == r.mmsi) with
  | some existing =>
      simp only [processReport, h]
      by_cases hm : r.mmsi = m
      · subst hm
        rw [if_pos rfl, updateCountOf_of_find?_some h]
        have := updateCountOf_upsert_self acc.db.current
          (applyReportSet r now (some existing) (existing.updateCount + 1))
        rw [applyReportSet_mmsi] at this
        rw [this, applyReportSet_updateCount]
      · rw [if_neg hm,
          updateCountOf_upsert_other _ _ m (by rw [applyReportSet_mmsi]; exact fun hc => hm hc.symm)]
        omega
  | none =>
      simp only [processReport, h]
      by_cases hm : r.mmsi = m
      · subst hm
        rw [if_pos rfl, updateCountOf_of_find?_none h]
        have := updateCountOf_upsert_self acc.db.current (applyReportSet r now none 1)
        rw [applyReportSet_mmsi] at this
        rw [this, applyReportSet_updateCount]
      · rw [if_neg hm,
          updateCountOf_upsert_other _ _ m (by rw [applyReportSet_mmsi]; exact fun hc => hm hc.symm)]
        omega

lemma bulkUpsertOne_updateCountOf (now : Int) (cur : List CVessel) (r : Report) (m : Nat) :
    updateCountOf (bulkUpsertOne now cur r) m
      = updateCountOf cur m + (if r.mmsi = m then 1 else 0) := by
  cases h : cur.find? (fun v => v.mmsi == r.mmsi) with
  | some existing =>
      simp only [bulkUpsertOne, h]
      by_cases hm : r.mmsi = m
      · subst hm
        rw [if_pos rfl, updateCountOf_of_find?_some h]
        have := updateCountOf_upsert_self cur
          (applyReportSet r now (some existing) (existing.updateCount + 1))
        rw [applyReportSet_mmsi] at this
        rw [this, applyReportSet_updateCount]
      · rw [if_neg hm,
          updateCountOf_upsert_other _ _ m (by rw [applyReportSet_mmsi]; exact fun hc => hm hc.symm)]
        omega
  | none =>
      simp only [bulkUpsertOne, h]
      by_cases hm : r.mmsi = m
      · subst hm
        rw [if_pos rfl, updateCountOf_of_find?_none h]
        have := updateCountOf_upsert_self cur (applyReportSet r now none 1)
        rw [applyReportSet_mmsi] at this
        rw [this, applyReportSet_updateCount]
      · rw [if_neg hm,
          updateCountOf_upsert_other _ _ m (by rw [applyReportSet_mmsi]; exact fun hc => hm hc.symm)]
        omega

lemma foldl_processReport_updateCountOf (now : Int) (m : Nat) :
    ∀ (rs : List Report) (acc : RunAcc),
      updateCountOf (rs.foldl (processReport now) acc).db.current m
        = updateCountOf acc.db.current m + (rs.filter (fun r => r.mmsi == m)).length := by
  intro rs
  induction rs with
  | nil => intro acc; simp
  | cons r rs ih =>
      intro acc
      simp only [List.foldl_cons, List.filter_cons]
      rw [ih (processReport now acc r), processReport_updateCountOf]
      by_cases hm : r.mmsi = m
      · rw [if_pos hm, if_pos (by simp [hm])]
        simp only [List.length_cons]
        omega
      · rw [if_neg hm, if_neg (by simp [hm])]
        omega

lemma foldl_bulkUpsertOne_updateCountOf (now : Int) (m : Nat) :
    ∀ (rs : List Report) (cur : List CVessel),
      updateCountOf (rs.foldl (bulkUpsertOne now) cur) m
        = updateCountOf cur m + (rs.filter (fun r => r.mmsi == m)).length := by
  intro rs
  induction rs with
  | nil => intro cur; simp
  | cons r rs ih =>
      intro cur
      simp only [List.foldl_cons, List.filter_cons]
      rw [ih (bulkUpsertOne now cur r), bulkUpsertOne_updateCountOf]
      by_cases hm : r.mmsi = m
      · rw [if_pos hm, if_pos (by simp [hm])]
        simp only [List.length_cons]
        omega
      · rw [if_neg hm, if_neg (by simp [hm])]
        omega

lemma applyOp_updateCountOf (db : Db) (op : ReconcileOp) (m : Nat) :
    updateCountOf (applyOp db op).current m
      = updateCountOf db.current m + opReportCount m op := by
  cases op with
  | single rs now =>
      simp only [applyOp, opReportCount, updateCurrentVesselData]
      exact foldl_processReport_updateCountOf now m rs _
  | bulk rs now =>
      simp only [applyOp, opReportCount, bulkUpsertVessels]
      exact foldl_bulkUpsertOne_updateCountOf now m rs db.current

lemma runOps_updateCountOf (m : Nat) :
    ∀ (ops : List ReconcileOp) (db : Db),
      updateCountOf (runOps db ops).current m
        = updateCountOf db.current m + (ops.map (opReportCount m)).sum := by
  intro ops
  induction ops with
  | nil => intro db; simp [runOps]
  | cons op ops ih =>
      intro db
      simp only [runOps, List.foldl_cons, List.map_cons, List.sum_cons]
      rw [show (ops.foldl applyOp (applyOp db op)) = runOps (applyOp db op) ops from rfl,
        ih (applyOp db op), applyOp_updateCountOf]
      omega

/-- C2: over any history mixing the single-batch path and the bulk path, the
`updateCount` of a fixed MMSI grows by exactly the number of reports for that MMSI
(so by exactly 1 per successful reconciliation of that vessel, starting at 1 on
first creation since the count of an unseen vessel reads as 0), and it never
decreases under further reconciliations. -/
theorem updateCount_reconciliation_law (ops : List ReconcileOp) (db : Db) (m : Nat) :
    (updateCountOf (runOps db ops).current m
        = updateCountOf db.current m + (ops.map (opReportCount m)).sum)
    ∧ (∀ more : List ReconcileOp,
        updateCountOf (runOps db ops).current m
          ≤ updateCountOf (runOps db (ops ++ more)).current m)
    ∧ (∀ (now : Int) (acc : RunAcc) (r : Report),
        updateCountOf (processReport now acc r).db.current r.mmsi
          = updateCountOf acc.db.current r.mmsi + 1)
    ∧ ∀ (now : Int) (cur : List CVessel) (r : Report),
        updateCountOf (bulkUpsertOne now cur r) r.mmsi = updateCountOf cur r.mmsi + 1 := by
  refine ⟨runOps_updateCountOf m ops db, ?_, ?_, ?_⟩
  · intro more
    have hsplit : runOps db (ops ++ more) = runOps (runOps db ops) more := by
      simp [runOps, List.foldl_append]
    rw [hsplit, runOps_updateCountOf m more (runOps db ops)]
    omega
  · intro now acc r
    rw [processReport_updateCountOf now acc r r.mmsi, if_pos rfl]
  · intro now cur r
    rw [bulkUpsertOne_updateCountOf now cur r r.mmsi, if_pos rfl]

lemma nodup_mmsis_upsert {cur : List CVessel} (v : CVessel)
    (h : (mmsis cur).Nodup) : (mmsis (upsertCurrent cur v)).Nodup := by
  induction cur with
  | nil => simp [upsertCurrent, mmsis]
  | cons c cs ih =>
      simp only [mmsis, List.map_cons, List.nodup_cons] at h
      by_cases hc : c.mmsi = v.mmsi
      · simp only [upsertCurrent, if_pos hc, mmsis, List.map_cons, List.nodup_cons]
        exact ⟨hc ▸ h.1, h.2⟩
      · simp only [upsertCurrent, if_neg hc, mmsis, List.map_cons, List.nodup_cons]
        refine ⟨?_, ih h.2⟩
        intro hmem
        rw [show (List.map (fun w => w.mmsi) (upsertCurrent cs v) : List Nat)
              = mmsis (upsertCurrent cs v) from rfl, mem_mmsis_upsert] at hmem
        rcases hmem with hmem | hmem
        · exact hc hmem
        · exact h.1 hmem

lemma mem_mmsis_bulkUpsertOne (now : Int) (cur : List CVessel) (r : Report) (x : Nat) :
    x ∈ mmsis (bulkUpsertOne now cur r) ↔ x = r.mmsi ∨ x ∈ mmsis cur := by
  cases h : cur.find? (fun v => v.mmsi == r.mmsi) with
  | some existing =>
      simp only [bulkUpsertOne, h]
      rw [mem_mmsis_upsert, applyReportSet_mmsi]
  | none =>
      simp only [bulkUpsertOne, h]
      rw [mem_mmsis_upsert, applyReportSet_mmsi]

lemma processReport_nodup (now : Int) (acc : RunAcc) (r : Report)
    (h : (mmsis acc.db.current).Nodup) :
    (mmsis (processReport now acc r).db.current).Nodup := by
  cases hf : acc.db.current.find? (fun v => v.mmsi == r.mmsi) with
  | some existing => simp only [processReport, hf]; exact nodup_mmsis_upsert _ h
  | none => simp only [processReport, hf]; exact nodup_mmsis_upsert _ h

lemma bulkUpsertOne_nodup (now : Int) (cur : List CVessel) (r : Report)
    (h : (mmsis cur).Nodup) : (mmsis (bulkUpsertOne now cur r)).Nodup := by
  cases hf : cur.find? (fun v => v.mmsi == r.mmsi) with
  | some existing => simp only [bulkUpsertOne, hf]; exact nodup_mmsis_upsert _ h
  | none => simp only [bulkUpsertOne, hf]; exact nodup_mmsis_upsert _ h

lemma foldl_processReport_nodup (now : Int) :
    ∀ (rs : List Report) (acc : RunAcc), (mmsis acc.db.current).Nodup →
      (mmsis ((rs.foldl (processReport now) acc)).db.current).Nodup := by
  intro rs
  induction rs with
  | nil => intro acc h; exact h
  | cons r rs ih =>
      intro acc h
      exact ih (processReport now acc r) (processReport_nodup now acc r h)

lemma foldl_bulkUpsertOne_nodup (now : Int) :
    ∀ (rs : List Report) (cur : List CVessel), (mmsis cur).Nodup →
      (mmsis (rs.foldl (bulkUpsertOne now) cur)).Nodup := by
  intro rs
  induction rs with
  | nil => intro cur h; exact h
  | cons r rs ih =>
      intro cur h
      exact ih (bulkUpsertOne now cur r) (bulkUpsertOne_nodup now cur r h)

lemma applyOp_nodup (db : Db) (op : ReconcileOp) (h : (mmsis db.current).Nodup) :
    (mmsis (applyOp db op).current).Nodup := by
  cases op with
  | single rs now => exact foldl_processReport_nodup now rs _ h
  | bulk rs now => exact foldl_bulkUpsertOne_nodup now rs db.current h

lemma runOps_nodup :
    ∀ (ops : List ReconcileOp) (db : Db), (mmsis db.current).Nodup →
      (mmsis (runOps db ops).current).Nodup := by
  intro ops
  induction ops with
  | nil => intro db h; exact h
  | cons op ops ih =>
      intro db h
      exact ih (applyOp db op) (applyOp_nodup db op h)

lemma foldl_processReport_mem_mono (now : Int) {m : Nat} :
    ∀ (rs : List Report) (acc : RunAcc), m ∈ mmsis acc.db.current →
      m ∈ mmsis ((rs.foldl (processReport now) acc)).db.current := by
  intro rs
  induction rs with
  | nil => intro acc h; exact h
  | cons r rs ih =>
      intro acc h
      exact ih (processReport now acc r) ((processReport_mmsis_mem now acc r m).mpr (Or.inr h))

lemma foldl_bulkUpsertOne_mem_mono (now : Int) {m : Nat} :
    ∀ (rs : List Report) (cur : List CVessel), m ∈ mmsis cur →
      m ∈ mmsis (rs.foldl (bulkUpsertOne now) cur) := by
  intro rs
  induction rs with
  | nil => intro cur h; exact h
  | cons r rs ih =>
      intro cur h
      exact ih (bulkUpsertOne now cur r) ((mem_mmsis_bulkUpsertOne now cur r m).mpr (Or.inr h))

lemma applyOp_mem_mono (db : Db) (op : ReconcileOp) {m : Nat}
    (h : m ∈ mmsis db.current) : m ∈ mmsis (applyOp db op).current := by
  cases op with
  | single rs now => exact foldl_processReport_mem_mono now rs _ h
  | bulk rs now => exact foldl_bulkUpsertOne_mem_mono now rs db.current h

lemma runOps_mem_mono :
    ∀ (ops : List ReconcileOp) (db : Db) (m : Nat), m ∈ mmsis db.current →
      m ∈ mmsis (runOps db ops).current := by
  intro ops
  induction ops with
  | nil => intro db m h; exact h
  | cons op ops ih =>
      intro db m h
      exact ih (applyOp db op) m (applyOp_mem_mono db op h)

lemma foldl_processReport_mem_report (now : Int) {m : Nat} :
    ∀ (rs : List Report) (acc : RunAcc), m ∈ rs.map (·.mmsi) →
      m ∈ mmsis ((rs.foldl (processReport now) acc)).db.current := by
  intro rs
  induction rs with
  | nil => intro acc h; simp at h
  | cons r rs ih =>
      intro acc h
      rcases List.mem_cons.mp h with h | h
      · exact foldl_processReport_mem_mono now rs _
          ((processReport_mmsis_mem now acc r m).mpr (Or.inl h))
      · exact ih (processReport now acc r) h

lemma foldl_bulkUpsertOne_mem_report (now : Int) {m : Nat} :
    ∀ (rs : List Report) (cur : List CVessel), m ∈ rs.map (·.mmsi) →
      m ∈ mmsis (rs.foldl (bulkUpsertOne now) cur) := by
  intro rs
  induction rs with
  | nil => intro cur h; simp at h
  | cons r rs ih =>
      intro cur h
      rcases List.mem_cons.mp h with h | h
      · exact foldl_bulkUpsertOne_mem_mono now rs _
          ((mem_mmsis_bulkUpsertOne now cur r m).mpr (Or.inl h))
      · exact ih (bulkUpsertOne now cur r) h

lemma applyOp_mem_op (db : Db) (op : ReconcileOp) {m : Nat}
    (h : m ∈ opMmsis op) : m ∈ mmsis (applyOp db op).current := by
  cases op with
  | single rs now => exact foldl_processReport_mem_report now rs _ h
  | bulk rs now => exact foldl_bulkUpsertOne_mem_report now rs db.current h

lemma runOps_mem_op :
    ∀ (ops : List ReconcileOp) (db : Db) (m : Nat),
      (∃ op ∈ ops, m ∈ opMmsis op) → m ∈ mmsis (runOps db ops).current := by
  intro ops
  induction ops with
  | nil => intro db m h; simp at h
  | cons op ops ih =>
      intro db m h
      rcases h with ⟨op', hop', hm⟩
      rcases List.mem_cons.mp hop' with h | h
      · subst h
        exact runOps_mem_mono ops (applyOp db op') m (applyOp_mem_op db op' hm)
      · exact ih (applyOp db op) m ⟨op', h, hm⟩

lemma filter_mmsi_length_one {m : Nat} :
    ∀ (l : List CVessel), (mmsis l).Nodup → m ∈ mmsis l →
      (l.filter (fun v => v.mmsi == m)).length = 1 := by
  intro l
  induction l with
  | nil => intro _ h; simp [mmsis] at h
  | cons c cs ih =>
      intro hnd hm
      simp only [mmsis, List.map_cons, List.nodup_cons] at hnd
      by_cases hc : c.mmsi = m
      · rw [List.filter_cons_of_pos (by simp [hc])]
        have hnone : cs.filter (fun v => v.mmsi == m) = [] := by
          apply List.filter_eq_nil_iff.mpr
          intro v hv hbeq
          simp only [beq_iff_eq] at hbeq
          exact hnd.1 (hc ▸ hbeq ▸ List.mem_map_of_mem (·.mmsi) hv)
        rw [hnone]
        rfl
      · rw [List.filter_cons_of_neg (by simp [hc])]
        apply ih hnd.2
        have hm' : m ∈ mmsis (c :: cs) := hm
        simp only [mmsis, List.map_cons, List.mem_cons] at hm'
        rcases hm' with h | h
        · exact absurd h.symm hc
        · exact h

/-- C3: for every history of reconciliations (any interleaving of single-batch and
bulk upserts) starting from a store with unique MMSIs, the current-state store keeps
at most one row per MMSI, and querying any MMSI that has been seen (present
initially or mentioned by some reconciled report) returns exactly one row. -/
theorem currentStore_at_most_one_per_mmsi (ops : List ReconcileOp) (db : Db)
    (h : (mmsis db.current).Nodup) :
    (mmsis (runOps db ops).current).Nodup
    ∧ ∀ m : Nat, (m ∈ mmsis db.current ∨ ∃ op ∈ ops, m ∈ opMmsis op) →
        ((runOps db ops).current.filter (fun v => v.mmsi == m)).length = 1 := by
  refine ⟨runOps_nodup ops db h, ?_⟩
  intro m hm
  apply filter_mmsi_length_one _ (runOps_nodup ops db h)
  rcases hm with hm | hm
  · exact runOps_mem_mono ops db m hm
  · exact runOps_mem_op ops db m hm

/-- Witness for C3: the empty store reconciled with a concrete two-report history
holds exactly one row for the reported MMSI. -/
theorem currentStore_at_most_one_per_mmsi_witness :
    (mmsis (Db.mk [] []).current).Nodup
    ∧ ((runOps (Db.mk [] []) demoOps).current.filter
        (fun v => v.mmsi == 123456789)).length = 1 :=
  ⟨by decide,
    (currentStore_at_most_one_per_mmsi demoOps (Db.mk [] []) (by decide)).2 123456789
      (by decide)⟩

lemma transform_timestamp (e : LogEntry) :
    (transformVesselLogForExport e).timestamp = e.timestamp := rfl

lemma samplePlaybackGo_sublist (m : ℚ) :
    ∀ (es : List LogEntry) (last : Int) (st : Bool),
      (samplePlaybackGo m es last st).Sublist (es.map transformVesselLogForExport) := by
  intro es
  induction es with
  | nil => intro last st; simp [samplePlaybackGo]
  | cons e es ih =>
      intro last st
      simp only [samplePlaybackGo, List.map_cons]
      by_cases h : m ≤ ((e.timestamp - last : Int) : ℚ) / (1000 * 60) ∨ st = false
      · rw [if_pos h]
        exact List.Sublist.cons₂ _ (ih e.timestamp true)
      · rw [if_neg h]
        exact List.Sublist.cons _ (ih last st)

lemma samplePlaybackGo_head (m : ℚ) :
    ∀ (es : List LogEntry) (last : Int) (p : ExportVessel),
      (samplePlaybackGo m es last true).head? = some p →
      m ≤ ((p.timestamp - last : Int) : ℚ) / (1000 * 60) := by
  intro es
  induction es with
  | nil => intro last p h; simp [samplePlaybackGo] at h
  | cons e es ih =>
      intro last p h
      simp only [samplePlaybackGo] at h
      by_cases hc : m ≤ ((e.timestamp - last : Int) : ℚ) / (1000 * 60) ∨ (true : Bool) = false
      · rw [if_pos hc] at h
        simp only [List.head?_cons, Option.some.injEq] at h
        rcases hc with hc | hc
        · rw [← h, transform_timestamp]
          exact hc
        · exact absurd hc (by simp)
      · rw [if_neg hc] at h
        exact ih last p h

lemma samplePlaybackGo_chain (m : ℚ) :
    ∀ (es : List LogEntry) (last : Int),
      List.Chain' (playbackGap m) (samplePlaybackGo m es last true) := by
  intro es
  induction es with
  | nil => intro last; simp [samplePlaybackGo]
  | cons e es ih =>
      intro last
      simp only [samplePlaybackGo]
      by_cases hc : m ≤ ((e.timestamp - last : Int) : ℚ) / (1000 * 60) ∨ (true : Bool) = false
      · rw [if_pos hc]
        rw [List.chain'_cons']
        refine ⟨?_, ih e.timestamp⟩
        intro y hy
        have := samplePlaybackGo_head m es e.timestamp y (Option.mem_def.mp hy)
        simpa [playbackGap, transform_timestamp] using this
      · rw [if_neg hc]
        exact ih last

lemma mem_sorted_playback {logs : List LogEntry} {m : Nat} {s e : Int} {x : LogEntry}
    (h : x ∈ List.insertionSort tsLE (logs.filter (logMatchesPlayback m s e))) :
    x ∈ logs ∧ logMatchesPlayback m s e x = true := by
  have := (List.perm_insertionSort tsLE (logs.filter (logMatchesPlayback m s e))).mem_iff.mp h
  exact ⟨(List.mem_filter.mp this).1, (List.mem_filter.mp this).2⟩

lemma pairwise_ts_sorted_playback (logs : List LogEntry) (m : Nat) (s e : Int) :
    List.Pairwise (fun a b : ExportVessel => a.timestamp ≤ b.timestamp)
      ((List.insertionSort tsLE (logs.filter (logMatchesPlayback m s e))).map
        transformVesselLogForExport) := by
  rw [List.pairwise_map]
  have := List.sorted_insertionSort tsLE (logs.filter (logMatchesPlayback m s e))
  exact this.imp (fun h => h)

/-- C4: playback output is time-ascending and drawn from the archived rows of the
vessel inside the window; with interval at most 1 every point is returned; with
interval above 1 the first raw point is always kept and consecutive kept points are
at least the interval apart in minutes (greedy forward sampling). -/
theorem getVesselPlaybackData_sampling (logs : List LogEntry) (mm : Nat)
    (startDate endDate : Int) (iv : ℚ) :
    List.Pairwise (fun a b : ExportVessel => a.timestamp ≤ b.timestamp)
        (getVesselPlaybackData logs mm startDate endDate iv)
    ∧ (∀ p ∈ getVesselPlaybackData logs mm startDate endDate iv,
        ∃ e, e ∈ logs ∧ logMatchesPlayback mm startDate endDate e = true
          ∧ p = transformVesselLogForExport e)
    ∧ (iv ≤ 1 → getVesselPlaybackData logs mm startDate endDate iv
        = (List.insertionSort tsLE
            (logs.filter (logMatchesPlayback mm startDate endDate))).map
            transformVesselLogForExport)
    ∧ (1 < iv → (getVesselPlaybackData logs mm startDate endDate iv).head?
        = (List.insertionSort tsLE
            (logs.filter (logMatchesPlayback mm startDate endDate))).head?.map
            transformVesselLogForExport)
    ∧ (1 < iv → List.Chain' (playbackGap iv)
        (getVesselPlaybackData logs mm startDate endDate iv)) := by
  have hsub : (getVesselPlaybackData logs mm startDate endDate iv).Sublist
      ((List.insertionSort tsLE
        (logs.filter (logMatchesPlayback mm startDate endDate))).map
        transformVesselLogForExport) := by
    by_cases h : iv ≤ 1
    · simp only [getVesselPlaybackData, if_pos h]
      exact List.Sublist.refl _
    · simp only [getVesselPlaybackData, if_neg h]
      exact samplePlaybackGo_sublist iv _ 0 false
  refine ⟨?_, ?_, ?_, ?_, ?_⟩
  · exact (pairwise_ts_sorted_playback logs mm startDate endDate).sublist hsub
  · intro p hp
    have := hsub.mem hp
    rcases List.mem_map.mp this with ⟨e, he, hpe⟩
    exact ⟨e, (mem_sorted_playback he).1, (mem_sorted_playback he).2, hpe.symm⟩
  · intro h
    simp only [getVesselPlaybackData, if_pos h]
  · intro h
    simp only [getVesselPlaybackData, if_neg (not_le.mpr h)]
    cases hs : List.insertionSort tsLE (logs.filter (logMatchesPlayback mm startDate endDate)) with
    | nil => simp [samplePlaybackGo]
    | cons e es =>
        simp only [samplePlaybackGo]
        rw [if_pos (show iv ≤ ((e.timestamp - 0 : Int) : ℚ) / (1000 * 60) ∨ True from
          Or.inr trivial)]
        simp
  · intro h
    simp only [getVesselPlaybackData, if_neg (not_le.mpr h)]
    cases hs : List.insertionSort tsLE (logs.filter (logMatchesPlayback mm startDate endDate)) with
    | nil => simp [samplePlaybackGo]
    | cons e es =>
        simp only [samplePlaybackGo]
        rw [if_pos (show iv ≤ ((e.timestamp - 0 : Int) : ℚ) / (1000 * 60) ∨ True from
          Or.inr trivial)]
        rw [List.chain'_cons']
        refine ⟨?_, samplePlaybackGo_chain iv es e.timestamp⟩
        intro y hy
        have := samplePlaybackGo_head iv es e.timestamp y (Option.mem_def.mp hy)
        simpa [playbackGap, transform_timestamp] using this

/-- Witness for C4: with a 5-minute interval on the concrete archive, the sampled
output satisfies the minimum-gap chain (points 2 and 3 minutes after the first are
dropped, the one 10 minutes after is kept). -/
theorem getVesselPlaybackData_sampling_witness :
    (1 : ℚ) < 5
    ∧ List.Chain' (playbackGap 5) (getVesselPlaybackData demoLogs 123456789 0 1000000 5) :=
  ⟨by norm_num,
    (getVesselPlaybackData_sampling demoLogs 123456789 0 1000000 5).2.2.2.2 (by norm_num)⟩

lemma validate_dataType_irrel (q : POIQuery) (d : Option String) :
    validatePOIAreaQuery { q with dataType := d } = validatePOIAreaQuery q := rfl

lemma buildGeoQuery_dataType_irrel (q : POIQuery) (d : Option String) :
    buildGeoQuery { q with dataType := d } = buildGeoQuery q := rfl

lemma validate_ok_conditions {q : POIQuery} (h : validatePOIAreaQuery q = .ok ()) :
    q.minLongitude < q.maxLongitude ∧ q.minLatitude < q.maxLatitude
    ∧ -180 ≤ q.minLongitude ∧ q.maxLongitude ≤ 180
    ∧ -90 ≤ q.minLatitude ∧ q.maxLatitude ≤ 90
    ∧ dateOrderBad q.startDate q.endDate = false
    ∧ calculateBoundingBoxSize q.minLongitude q.maxLongitude q.minLatitude q.maxLatitude
        ≤ 1000000 := by
  simp only [validatePOIAreaQuery] at h
  split_ifs at h with h1 h2 h3 h4 h5 h6
  all_goals
    first
      | exact Except.noConfusion h
      | (push_neg at h1 h2 h3 h4 h6
         exact ⟨h1, h2, h3.1, h3.2, h4.1, h4.2, Bool.eq_false_iff.mpr h5, h6⟩)

/-- C5: every POI-area query is validated before any storage access. Degenerate
bounds (min at least max), out-of-range coordinates, and a start date not strictly
before the end date are all rejected; when the earlier checks pass and the computed
approximate area exceeds 1,000,000 square kilometres, the query is rejected with the
area-exceeded error; and a rejected query produces the same error on the count
endpoint regardless of the database contents. -/
theorem validatePOIAreaQuery_rejections (q : POIQuery) (db₁ db₂ : Db) :
    (q.maxLongitude ≤ q.minLongitude → validatePOIAreaQuery q = .error .lonOrder)
    ∧ (q.maxLatitude ≤ q.minLatitude → validatePOIAreaQuery q ≠ .ok ())
    ∧ ((q.minLongitude < -180 ∨ 180 < q.minLongitude ∨ q.maxLongitude < -180
          ∨ 180 < q.maxLongitude ∨ q.minLatitude < -90 ∨ 90 < q.minLatitude
          ∨ q.maxLatitude < -90 ∨ 90 < q.maxLatitude)
        → validatePOIAreaQuery q ≠ .ok ())
    ∧ (∀ sd ed : Int, q.startDate = some sd → q.endDate = some ed → ed ≤ sd →
        validatePOIAreaQuery q ≠ .ok ())
    ∧ (q.minLongitude < q.maxLongitude → q.minLatitude < q.maxLatitude →
        -180 ≤ q.minLongitude → q.maxLongitude ≤ 180 →
        -90 ≤ q.minLatitude → q.maxLatitude ≤ 90 →
        dateOrderBad q.startDate q.endDate = false →
        1000000 <
          calculateBoundingBoxSize q.minLongitude q.maxLongitude q.minLatitude q.maxLatitude →
        validatePOIAreaQuery q = .error .areaTooLarge)
    ∧ ∀ e : PoiError, validatePOIAreaQuery q = .error e →
        getPOIAreaCountEndpoint q db₁ = .error e
        ∧ getPOIAreaCountEndpoint q db₁ = getPOIAreaCountEndpoint q db₂ := by
  refine ⟨?_, ?_, ?_, ?_, ?_, ?_⟩
  · intro hle
    simp only [validatePOIAreaQuery, if_pos hle]
  · intro hle hok
    have hc := validate_ok_conditions hok
    linarith [hc.2.1]
  · intro hrange hok
    have hc := validate_ok_conditions hok
    obtain ⟨c1, c2, c3, c4, c5, c6, -, -⟩ := hc
    rcases hrange with h | h | h | h | h | h | h | h <;> linarith
  · intro sd ed hs he hle hok
    have hc := (validate_ok_conditions hok).2.2.2.2.2.2.1
    rw [hs, he] at hc
    simp only [dateOrderBad, decide_eq_false_iff_not, not_le] at hc
    linarith
  · intro h1 h2 h3 h4 h5 h6 hdate harea
    simp only [validatePOIAreaQuery]
    rw [if_neg (not_le.mpr h1), if_neg (not_le.mpr h2),
      if_neg (by push_neg; exact ⟨h3, h4⟩), if_neg (by push_neg; exact ⟨h5, h6⟩),
      if_neg (by simp [hdate]), if_pos harea]
  · intro e hval
    have hv : validatePOIAreaQuery { q with dataType := some (strOr q.dataType "vessel") }
        = .error e := (validate_dataType_irrel q _).trans hval
    constructor
    · simp [getPOIAreaCountEndpoint, hv]
    · simp [getPOIAreaCountEndpoint, hv]

lemma globe_area_gt :
    (1000000 : ℝ) < calculateBoundingBoxSize (-180) 180 (-90) 90 := by
  simp only [calculateBoundingBoxSize]
  have h0 : ((((-90 : ℚ) : ℝ) + ((90 : ℚ) : ℝ)) / 2 * Real.pi / 180) = 0 := by
    push_cast
    ring
  rw [h0, Real.cos_zero]
  have harg : |((180 : ℚ) : ℝ) - ((-180 : ℚ) : ℝ)| * 111.32 * 1
      * (|((90 : ℚ) : ℝ) - ((-90 : ℚ) : ℝ)| * 110.54) * 100 = ((79738426944 : ℤ) : ℝ) := by
    push_cast
    rw [show |(180 : ℝ) - (-180)| = 360 by rw [abs_of_nonneg] <;> norm_num,
      show |(90 : ℝ) - (-90)| = 180 by rw [abs_of_nonneg] <;> norm_num]
    norm_num
  rw [harg, round_intCast]
  norm_num

/-- Witness for C5: the equal-longitude box (both bounds 10) is rejected with the
ordering error, and the whole-globe box passes the shape checks but is rejected with
the area-exceeded error. -/
theorem validatePOIAreaQuery_rejections_witness :
    (eqLonQuery.maxLongitude ≤ eqLonQuery.minLongitude
      ∧ validatePOIAreaQuery eqLonQuery = .error .lonOrder)
    ∧ ((1000000 : ℝ) <
        calculateBoundingBoxSize globeQuery.minLongitude globeQuery.maxLongitude
          globeQuery.minLatitude globeQuery.maxLatitude
      ∧ validatePOIAreaQuery globeQuery = .error .areaTooLarge) :=
  ⟨⟨by decide,
      (validatePOIAreaQuery_rejections eqLonQuery (Db.mk [] []) (Db.mk [] [])).1 (by decide)⟩,
    ⟨globe_area_gt,
      (validatePOIAreaQuery_rejections globeQuery (Db.mk [] []) (Db.mk [] [])).2.2.2.2.1
        (by decide) (by decide) (by decide) (by decide) (by decide) (by decide) rfl
        globe_area_gt⟩⟩

/-- C10: any POI-area query with a coordinate bound equal to exactly 0 makes the
service helper `buildGeoQuery` throw its missing-bounds error, because the source
tests the bounds for falsiness rather than presence; consequently
`getPOIAreaTotalCount`, `getVesselsByPOIArea` and `getAllPOIAreaData` all fail for
such otherwise-valid boxes, and `calculateAreaSize` returns 0. -/
theorem buildGeoQuery_zero_bound_failure (q : POIQuery) (db : Db)
    (h : q.minLongitude = 0 ∨ q.maxLongitude = 0 ∨ q.minLatitude = 0 ∨ q.maxLatitude = 0) :
    buildGeoQuery q = .error "All coordinate bounds are required"
    ∧ getPOIAreaTotalCount q db = .error "All coordinate bounds are required"
    ∧ getVesselsByPOIArea q db = .error "All coordinate bounds are required"
    ∧ getAllPOIAreaData q db = .error "All coordinate bounds are required"
    ∧ calculateAreaSize q.minLongitude q.maxLongitude q.minLatitude q.maxLatitude = 0 := by
  have hb : buildGeoQuery q = .error "All coordinate bounds are required" := by
    simp only [buildGeoQuery, if_pos h]
  have hb2 : buildGeoQuery { q with dataType := some (strOr q.dataType "vessel") }
      = .error "All coordinate bounds are required" :=
    (buildGeoQuery_dataType_irrel q _).trans hb
  have hcount2 : getPOIAreaTotalCount { q with dataType := some (strOr q.dataType "vessel") } db
      = .error "All coordinate bounds are required" := by
    simp [getPOIAreaTotalCount, hb2]
  refine ⟨hb, ?_, ?_, ?_, ?_⟩
  · simp [getPOIAreaTotalCount, hb]
  · simp [getVesselsByPOIArea, hb]
  · simp [getAllPOIAreaData, hcount2]
  · simp only [calculateAreaSize]
    rw [if_pos h]

/-- Witness for C10: the box with its southern edge on the equator is rejected by
`buildGeoQuery` and gets area 0 from `calculateAreaSize`. -/
theorem buildGeoQuery_zero_bound_failure_witness :
    (zeroLatQuery.minLongitude = 0 ∨ zeroLatQuery.maxLongitude = 0
      ∨ zeroLatQuery.minLatitude = 0 ∨ zeroLatQuery.maxLatitude = 0)
    ∧ buildGeoQuery zeroLatQuery = .error "All coordinate bounds are required"
    ∧ calculateAreaSize zeroLatQuery.minLongitude zeroLatQuery.maxLongitude
        zeroLatQuery.minLatitude zeroLatQuery.maxLatitude = 0 :=
  ⟨by decide,
    (buildGeoQuery_zero_bound_failure zeroLatQuery (Db.mk [] []) (by decide)).1,
    (buildGeoQuery_zero_bound_failure zeroLatQuery (Db.mk [] []) (by decide)).2.2.2.2⟩

lemma buildGeoQuery_ok {q : POIQuery}
    (hb : ¬(q.minLongitude = 0 ∨ q.maxLongitude = 0 ∨ q.minLatitude = 0
      ∨ q.maxLatitude = 0)) : buildGeoQuery q = .ok (mkGeo q) := by
  simp only [buildGeoQuery, mkGeo]
  rw [if_neg hb]

/-- C8: for the combined data type, the total count is the sum of the current count
and the archived count (with the breakdown reporting each side), and a page is built
as half a page of current rows sorted by `lastUpdated` descending concatenated with
half a page of archived rows sorted by `timestamp` descending — a split, not a
globally time-ordered merge. -/
theorem poiArea_all_split_and_count (q : POIQuery) (db : Db)
    (hb : ¬(q.minLongitude = 0 ∨ q.maxLongitude = 0 ∨ q.minLatitude = 0
      ∨ q.maxLatitude = 0))
    (hdt : q.dataType = some "all") :
    buildGeoQuery q = .ok (mkGeo q)
    ∧ (∃ r : CountResult, getPOIAreaTotalCount q db = .ok r
        ∧ r.dataBreakdown.currentVessels
            = (db.current.filter (geoMatchesCurrent (mkGeo q))).length
        ∧ r.dataBreakdown.archivedVessels
            = (db.logs.filter (geoMatchesArchived (mkGeo q))).length
        ∧ r.totalCount
            = r.dataBreakdown.currentVessels + r.dataBreakdown.archivedVessels)
    ∧ ∃ p : PageResult, getVesselsByPOIArea q db = .ok p
        ∧ p.vessels =
            ((((List.insertionSort luGE
                  (db.current.filter (geoMatchesCurrent (mkGeo q)))).drop
                ((natOr q.page 1 - 1) * 100 / 2)).take 50).map transformCurrentForExport)
            ++ ((((List.insertionSort tsGE
                  (db.logs.filter (geoMatchesArchived (mkGeo q)))).drop
                ((natOr q.page 1 - 1) * 100 / 2)).take 50).map transformVesselLogForExport)
        ∧ p.pagination.totalCount
            = (db.current.filter (geoMatchesCurrent (mkGeo q))).length
              + (db.logs.filter (geoMatchesArchived (mkGeo q))).length := by
  have hg := buildGeoQuery_ok hb
  have hstr : strOr q.dataType "vessel" = "all" := by rw [hdt]; rfl
  refine ⟨hg, ⟨?_, ?_⟩⟩
  · refine
      ⟨{ totalCount := (db.current.filter (geoMatchesCurrent (mkGeo q))).length
              + (db.logs.filter (geoMatchesArchived (mkGeo q))).length
         totalPages := ((db.current.filter (geoMatchesCurrent (mkGeo q))).length
              + (db.logs.filter (geoMatchesArchived (mkGeo q))).length + 99) / 100
         estimatedTime := ((((db.current.filter (geoMatchesCurrent (mkGeo q))).length
              + (db.logs.filter (geoMatchesArchived (mkGeo q))).length + 99) / 100 : Nat) : ℚ)
            * (1 / 2)
         dataBreakdown :=
           { currentVessels := (db.current.filter (geoMatchesCurrent (mkGeo q))).length
             archivedVessels := (db.logs.filter (geoMatchesArchived (mkGeo q))).length
             totalUnique :=
               if 0 < (db.current.filter (geoMatchesCurrent (mkGeo q))).length
                   + (db.logs.filter (geoMatchesArchived (mkGeo q))).length
               then (getUniqueMMSIsInArea (mkGeo q) "all" db).length else 0 } },
        ?_, rfl, rfl, rfl⟩
    simp only [getPOIAreaTotalCount, hg, hstr]
    rfl
  · refine
      ⟨{ vessels :=
            ((((List.insertionSort luGE
                  (db.current.filter (geoMatchesCurrent (mkGeo q)))).drop
                ((natOr q.page 1 - 1) * 100 / 2)).take 50).map transformCurrentForExport)
            ++ ((((List.insertionSort tsGE
                  (db.logs.filter (geoMatchesArchived (mkGeo q)))).drop
                ((natOr q.page 1 - 1) * 100 / 2)).take 50).map transformVesselLogForExport)
         pagination :=
           { page := natOr q.page 1
             pageSize := 100
             totalCount := (db.current.filter (geoMatchesCurrent (mkGeo q))).length
                + (db.logs.filter (geoMatchesArchived (mkGeo q))).length
             totalPages := ((db.current.filter (geoMatchesCurrent (mkGeo q))).length
                + (db.logs.filter (geoMatchesArchived (mkGeo q))).length + 99) / 100
             hasNextPage := decide (natOr q.page 1 <
                ((db.current.filter (geoMatchesCurrent (mkGeo q))).length
                  + (db.logs.filter (geoMatchesArchived (mkGeo q))).length + 99) / 100)
             hasPrevPage := decide (1 < natOr q.page 1)
             currentPageCount :=
               (((((List.insertionSort luGE
                    (db.current.filter (geoMatchesCurrent (mkGeo q)))).drop
                  ((natOr q.page 1 - 1) * 100 / 2)).take 50).map transformCurrentForExport)
                ++ ((((List.insertionSort tsGE
                    (db.logs.filter (geoMatchesArchived (mkGeo q)))).drop
                  ((natOr q.page 1 - 1) * 100 / 2)).take 50).map
                  transformVesselLogForExport)).length }
         statistics :=
           calculateAreaStatistics q
             ((db.current.filter (geoMatchesCurrent (mkGeo q))).length
               + (db.logs.filter (geoMatchesArchived (mkGeo q))).length) "all" },
        ?_, rfl, rfl⟩
    simp only [getVesselsByPOIArea, hg, hstr]
    rfl

/-- Witness for C8: on the concrete database with exactly 3 current vessels inside
the box and no archived rows, the combined count is 3 with breakdown 3 current and
0 archived. -/
theorem poiArea_all_split_and_count_witness :
    demoPoiQuery.dataType = some "all"
    ∧ ∃ r : CountResult, getPOIAreaTotalCount demoPoiQuery demoPoiDb = .ok r
        ∧ r.totalCount = 3 ∧ r.dataBreakdown.currentVessels = 3
        ∧ r.dataBreakdown.archivedVessels = 0 := by
  obtain ⟨-, ⟨r, hr, hc, ha, ht⟩, -⟩ :=
    poiArea_all_split_and_count demoPoiQuery demoPoiDb (by decide) rfl
  have hc3 : (demoPoiDb.current.filter (geoMatchesCurrent (mkGeo demoPoiQuery))).length = 3 := by
    decide
  have ha0 : (demoPoiDb.logs.filter (geoMatchesArchived (mkGeo demoPoiQuery))).length = 0 := by
    decide
  refine ⟨rfl, r, hr, ?_, ?_, ?_⟩
  · rw [ht, hc, ha, hc3, ha0]
  · rw [hc, hc3]
  · rw [ha, ha0]

/-- C7: the collector is single-flight. While the busy flag is set, a call to
either entry point fails immediately with the in-progress error, independently of
any body outcome (so the body never runs and nothing queues); and a call that does
start clears the busy flag when it finishes, whether its body succeeded or
failed. -/
theorem collector_single_flight (body₁ body₂ : Except String CollectionResult) :
    collectAndStoreVessels true body₁
        = (Except.error "Collection already in progress", true)
    ∧ collectAndStoreVessels true body₁ = collectAndStoreVessels true body₂
    ∧ (collectAndStoreVessels false body₁).2 = false
    ∧ (collectAndStoreVessels false body₁).1 = body₁
    ∧ forceAggressiveCollection true body₁
        = (Except.error "Collection already in progress", true)
    ∧ forceAggressiveCollection true body₁ = forceAggressiveCollection true body₂
    ∧ (forceAggressiveCollection false body₁).2 = false
    ∧ (forceAggressiveCollection false body₁).1 = body₁ :=
  ⟨rfl, rfl, rfl, rfl, rfl, rfl, rfl, rfl⟩

/-- C9: an emitted update contains only input vessels inside the 1-minute window;
an empty fresh subset emits nothing (silent skip); and the age check fails closed:
a vessel with no parseable date, or one with a date in the future, is excluded from
any window (in particular from both the 24-hour and the 1-minute windows) without
raising an error. -/
theorem broadcast_update_window_fail_closed (now : Int) (vessels : List BVessel) :
    (∀ p : UpdatePayload, broadcastVesselUpdate now vessels = some p →
        ∀ v ∈ p.vessels, checkVesselAge now v UPDATE_DATA_AGE_MS = true ∧ v ∈ vessels)
    ∧ (vessels.filter (fun v => isVesselFreshForUpdate now v) = [] →
        broadcastVesselUpdate now vessels = none)
    ∧ (∀ (v : BVessel) (maxAgeMs : Int),
        chosenDate v = none ∨ chosenDate v = some none →
        checkVesselAge now v maxAgeMs = false)
    ∧ ∀ (v : BVessel) (t maxAgeMs : Int), chosenDate v = some (some t) → now < t →
        checkVesselAge now v maxAgeMs = false := by
  refine ⟨?_, ?_, ?_, ?_⟩
  · intro p hp v hv
    by_cases h1 : vessels.isEmpty
    · simp [broadcastVesselUpdate, h1] at hp
    · by_cases h2 : (vessels.filter (fun v => isVesselFreshForUpdate now v)).isEmpty
      · simp [broadcastVesselUpdate, h1, h2] at hp
      · simp only [broadcastVesselUpdate, if_neg h1, if_neg h2, Option.some.injEq] at hp
        rw [← hp] at hv
        simp only at hv
        have hmem := (List.perm_insertionSort bvGE
          (vessels.filter (fun v => isVesselFreshForUpdate now v))).mem_iff.mp hv
        have := List.mem_filter.mp hmem
        exact ⟨this.2, this.1⟩
  · intro h
    by_cases h1 : vessels.isEmpty
    · simp [broadcastVesselUpdate, h1]
    · simp [broadcastVesselUpdate, h1, h]
  · intro v maxAgeMs h
    rcases h with h | h <;> simp [checkVesselAge, h]
  · intro v t maxAgeMs hch hfut
    simp only [checkVesselAge, hch]
    rw [if_pos (by omega)]

/-- Witness for C9: at instant 100000, the update over the concrete list keeps only
the 30-second-old vessel; the unparseable vessel and the future-dated vessel are
excluded from both windows; and a stale-only input emits nothing. -/
theorem broadcast_update_window_fail_closed_witness :
    (broadcastVesselUpdate 100000 demoBVs
        = some { count := 1, totalProcessed := 4, vessels := [demoBV 1 70000] })
    ∧ (checkVesselAge 100000 (demoBV 1 70000) UPDATE_DATA_AGE_MS = true
        ∧ demoBV 1 70000 ∈ demoBVs)
    ∧ checkVesselAge 100000 demoBVBad INITIAL_DATA_AGE_MS = false
    ∧ checkVesselAge 100000 (demoBV 4 200000) UPDATE_DATA_AGE_MS = false
    ∧ broadcastVesselUpdate 100000 [demoBV 2 0] = none :=
  ⟨by decide,
    (broadcast_update_window_fail_closed 100000 demoBVs).1
      { count := 1, totalProcessed := 4, vessels := [demoBV 1 70000] } (by decide)
      (demoBV 1 70000) (by decide),
    (broadcast_update_window_fail_closed 100000 demoBVs).2.2.1 demoBVBad
      INITIAL_DATA_AGE_MS (Or.inr (by decide)),
    (broadcast_update_window_fail_closed 100000 demoBVs).2.2.2 (demoBV 4 200000)
      200000 UPDATE_DATA_AGE_MS (by decide) (by decide),
    (broadcast_update_window_fail_closed 100000 [demoBV 2 0]).2.1 (by decide)⟩

lemma tsLt_trans {a b c : String} (hab : tsLt a b) (hbc : tsLt b c) : tsLt a c :=
  lt_trans hab hbc

lemma tsLt_irrefl (a : String) : ¬ tsLt a a := lt_irrefl a.data

lemma mapGet_none_iff {m : List (Nat × PVessel)} {k : Nat} :
    mapGet m k = none ↔ k ∉ m.map Prod.fst := by
  induction m with
  | nil => simp [mapGet]
  | cons p ps ih =>
      by_cases h : p.1 = k
      · simp [mapGet, h]
      · rw [mapGet, if_neg h, ih]
        simp only [List.map_cons, List.mem_cons]
        constructor
        · intro hk hc
          rcases hc with hc | hc
          · exact h hc.symm
          · exact hk hc
        · intro hk hc
          exact hk (Or.inr hc)

lemma mapGet_some_mem {m : List (Nat × PVessel)} {k : Nat} {ex : PVessel}
    (h : mapGet m k = some ex) : (k, ex) ∈ m := by
  induction m with
  | nil => simp [mapGet] at h
  | cons p ps ih =>
      by_cases hk : p.1 = k
      · rw [mapGet, if_pos hk] at h
        obtain ⟨p1, p2⟩ := p
        cases hk
        cases Option.some.inj h
        exact List.mem_cons_self _ _
      · rw [mapGet, if_neg hk] at h
        exact List.mem_cons_of_mem p (ih h)

lemma mapGet_of_mem {m : List (Nat × PVessel)}
    (hnd : (m.map Prod.fst).Nodup) {p : Nat × PVessel} (hp : p ∈ m) :
    mapGet m p.1 = some p.2 := by
  induction m with
  | nil => simp at hp
  | cons q qs ih =>
      simp only [List.map_cons, List.nodup_cons] at hnd
      rcases List.mem_cons.mp hp with rfl | hp
      · rw [mapGet, if_pos rfl]
      · have hne : q.1 ≠ p.1 := by
          intro hc
          exact hnd.1 (hc ▸ List.mem_map_of_mem Prod.fst hp)
        rw [mapGet, if_neg hne]
        exact ih hnd.2 hp

lemma mem_keys_mapSet {m : List (Nat × PVessel)} {k x : Nat} {v : PVessel} :
    x ∈ (mapSet m k v).map Prod.fst ↔ x = k ∨ x ∈ m.map Prod.fst := by
  induction m with
  | nil => simp [mapSet]
  | cons p ps ih =>
      by_cases h : p.1 = k
      · simp [mapSet, h]
      · simp only [mapSet, if_neg h, List.map_cons, List.mem_cons, ih]
        tauto

lemma keys_nodup_mapSet {m : List (Nat × PVessel)} {k : Nat} {v : PVessel}
    (hnd : (m.map Prod.fst).Nodup) : ((mapSet m k v).map Prod.fst).Nodup := by
  induction m with
  | nil => simp [mapSet]
  | cons p ps ih =>
      simp only [List.map_cons, List.nodup_cons] at hnd
      by_cases h : p.1 = k
      · simp only [mapSet, if_pos h, List.map_cons, List.nodup_cons]
        exact ⟨h ▸ hnd.1, hnd.2⟩
      · simp only [mapSet, if_neg h, List.map_cons, List.nodup_cons]
        refine ⟨?_, ih hnd.2⟩
        intro hc
        rcases mem_keys_mapSet.mp hc with hc | hc
        · exact h hc
        · exact hnd.1 hc

lemma mem_mapSet_elim {m : List (Nat × PVessel)} {k : Nat} {v : PVessel}
    (hnd : (m.map Prod.fst).Nodup) {p : Nat × PVessel} (hp : p ∈ mapSet m k v) :
    p = (k, v) ∨ (p ∈ m ∧ p.1 ≠ k) := by
  induction m with
  | nil =>
      simp only [mapSet, List.mem_singleton] at hp
      exact Or.inl hp
  | cons q qs ih =>
      simp only [List.map_cons, List.nodup_cons] at hnd
      by_cases h : q.1 = k
      · rw [mapSet, if_pos h] at hp
        rcases List.mem_cons.mp hp with rfl | hp
        · exact Or.inl rfl
        · refine Or.inr ⟨List.mem_cons_of_mem q hp, ?_⟩
          intro hc
          exact hnd.1 (h ▸ hc ▸ List.mem_map_of_mem Prod.fst hp)
      · rw [mapSet, if_neg h] at hp
        rcases List.mem_cons.mp hp with rfl | hp
        · exact Or.inr ⟨List.mem_cons_self _ _, h⟩
        · rcases ih hnd.2 hp with hc | hc
          · exact Or.inl hc
          · exact Or.inr ⟨List.mem_cons_of_mem q hc.1, hc.2⟩

lemma dedupStep_inv {processed : List PVessel} {m : List (Nat × PVessel)}
    (v : PVessel) (h : DedupInv processed m) :
    DedupInv (processed ++ [v]) (dedupStep m v) := by
  obtain ⟨hnd, hent, hcov⟩ := h
  have hcov' : ∀ mm : List Nat, (∀ w ∈ processed, w.mmsi ∈ m.map Prod.fst) →
      (∀ x, x ∈ mm ↔ x = v.mmsi ∨ x ∈ m.map Prod.fst) →
      ∀ w ∈ processed ++ [v], w.mmsi ∈ mm := by
    intro mm hold hiff w hw
    rcases List.mem_append.mp hw with hw | hw
    · exact (hiff w.mmsi).mpr (Or.inr (hold w hw))
    · rcases List.mem_singleton.mp hw with rfl
      exact (hiff w.mmsi).mpr (Or.inl rfl)
  cases hget : mapGet m v.mmsi with
  | none =>
      have hknotin : v.mmsi ∉ m.map Prod.fst := mapGet_none_iff.mp hget
      rw [dedupStep, hget]
      refine ⟨keys_nodup_mapSet hnd, ?_, ?_⟩
      · intro p hp
        rcases mem_mapSet_elim hnd hp with rfl | ⟨hpm, hpk⟩
        · refine ⟨rfl, List.mem_append_right _ (List.mem_singleton_self v), ?_⟩
          intro w hw hwm
          rcases List.mem_append.mp hw with hw | hw
          · have hwv : w.mmsi = v.mmsi := hwm
            exact absurd (hwv ▸ hcov w hw) hknotin
          · rcases List.mem_singleton.mp hw with rfl
            exact tsLt_irrefl _
        · obtain ⟨hpk2, hpp, hpmax⟩ := hent p hpm
          refine ⟨hpk2, List.mem_append_left _ hpp, ?_⟩
          intro w hw hwm
          rcases List.mem_append.mp hw with hw | hw
          · exact hpmax w hw hwm
          · rcases List.mem_singleton.mp hw with rfl
            exact absurd hwm.symm hpk
      · exact hcov' _ hcov (fun x => @mem_keys_mapSet m v.mmsi x v)
  | some existing =>
      have hexmem : (v.mmsi, existing) ∈ m := mapGet_some_mem hget
      by_cases hlt : tsLt existing.timestamp v.timestamp
      · rw [dedupStep, hget]
        simp only [if_pos hlt]
        refine ⟨keys_nodup_mapSet hnd, ?_, ?_⟩
        · intro p hp
          rcases mem_mapSet_elim hnd hp with rfl | ⟨hpm, hpk⟩
          · refine ⟨rfl, List.mem_append_right _ (List.mem_singleton_self v), ?_⟩
            intro w hw hwm
            rcases List.mem_append.mp hw with hw | hw
            · obtain ⟨-, -, hexmax⟩ := hent (v.mmsi, existing) hexmem
              have hwex := hexmax w hw hwm
              intro hvw
              exact hwex (tsLt_trans hlt hvw)
            · rcases List.mem_singleton.mp hw with rfl
              exact tsLt_irrefl _
          · obtain ⟨hpk2, hpp, hpmax⟩ := hent p hpm
            refine ⟨hpk2, List.mem_append_left _ hpp, ?_⟩
            intro w hw hwm
            rcases List.mem_append.mp hw with hw | hw
            · exact hpmax w hw hwm
            · rcases List.mem_singleton.mp hw with rfl
              exact absurd hwm.symm hpk
        · exact hcov' _ hcov (fun x => @mem_keys_mapSet m v.mmsi x v)
      · rw [dedupStep, hget]
        simp only [if_neg hlt]
        refine ⟨hnd, ?_, ?_⟩
        · intro p hp
          obtain ⟨hpk2, hpp, hpmax⟩ := hent p hp
          refine ⟨hpk2, List.mem_append_left _ hpp, ?_⟩
          intro w hw hwm
          rcases List.mem_append.mp hw with hw | hw
          · exact hpmax w hw hwm
          · rcases List.mem_singleton.mp hw with rfl
            by_cases hpkey : p.1 = w.mmsi
            · have hpm2 : mapGet m p.1 = some p.2 := mapGet_of_mem hnd hp
              rw [hpkey] at hpm2
              rw [hpm2] at hget
              cases Option.some.inj hget
              exact hlt
            · exact absurd hwm.symm hpkey
        · intro w hw
          rcases List.mem_append.mp hw with hw | hw
          · exact hcov w hw
          · rcases List.mem_singleton.mp hw with rfl
            exact List.mem_map_of_mem Prod.fst hexmem

lemma dedupFold_inv :
    ∀ (vs processed : List PVessel) (m : List (Nat × PVessel)),
      DedupInv processed m → DedupInv (processed ++ vs) (vs.foldl dedupStep m) := by
  intro vs
  induction vs with
  | nil => intro processed m h; simpa using h
  | cons v vs ih =>
      intro processed m h
      have h2 := ih (processed ++ [v]) (dedupStep m v) (dedupStep_inv v h)
      simpa [List.append_assoc] using h2

lemma guarded_fold_eq :
    ∀ (vs : List PVessel) (m : List (Nat × PVessel)),
      vs.foldl (fun m v => if 0 < v.mmsi then dedupStep m v else m) m
        = (vs.filter (fun v => decide (0 < v.mmsi))).foldl dedupStep m := by
  intro vs
  induction vs with
  | nil => intro m; rfl
  | cons v vs ih =>
      intro m
      by_cases h : 0 < v.mmsi
      · rw [List.foldl_cons, if_pos h, List.filter_cons_of_pos (by simpa using h),
          List.foldl_cons]
        exact ih (dedupStep m v)
      · rw [List.foldl_cons, if_neg h, List.filter_cons_of_neg (by simpa using h)]
        exact ih m

lemma at_most_one_key {m : List (Nat × PVessel)}
    (hnd : (m.map Prod.fst).Nodup) (hk : ∀ p ∈ m, p.2.mmsi = p.1) (k : Nat) :
    ((m.map Prod.snd).filter (fun v => v.mmsi == k)).length ≤ 1 := by
  induction m with
  | nil => simp
  | cons p ps ih =>
      simp only [List.map_cons, List.nodup_cons] at hnd
      have hpk := hk p (List.mem_cons_self p ps)
      by_cases h : p.2.mmsi = k
      · rw [List.map_cons, List.filter_cons_of_pos (by simpa using h)]
        have hnone : (ps.map Prod.snd).filter (fun v => v.mmsi == k) = [] := by
          apply List.filter_eq_nil_iff.mpr
          intro v hv hbeq
          simp only [beq_iff_eq] at hbeq
          rcases List.mem_map.mp hv with ⟨q, hq, rfl⟩
          have hqk := hk q (List.mem_cons_of_mem p hq)
          have hq1 : q.1 = p.1 := by rw [← hqk, hbeq, ← h, hpk]
          exact absurd (hq1 ▸ List.mem_map_of_mem Prod.fst hq) hnd.1
        rw [hnone]
        simp
      · rw [List.map_cons, List.filter_cons_of_neg (by simpa using h)]
        exact ih hnd.2 (fun q hq => hk q (List.mem_cons_of_mem p hq))

/-- C6: both deduplication paths keep at most one report per MMSI, every kept report
comes from the input, and a kept report is never strictly older (in the
lexicographic timestamp order the source compares with) than any input report with
the same MMSI — so of two reports for one MMSI with different timestamps only the
later one is retained. -/
theorem dedup_latest_per_mmsi (vs : List PVessel) :
    (∀ k : Nat, ((deduplicateVessels vs).filter (fun v => v.mmsi == k)).length ≤ 1)
    ∧ (∀ v ∈ deduplicateVessels vs, v ∈ vs
        ∧ ∀ w ∈ vs, w.mmsi = v.mmsi → ¬ tsLt v.timestamp w.timestamp)
    ∧ (∀ k : Nat, ((dedupAggressive vs).filter (fun v => v.mmsi == k)).length ≤ 1)
    ∧ ∀ v ∈ dedupAggressive vs, v ∈ vs
        ∧ ∀ w ∈ vs, w.mmsi = v.mmsi → ¬ tsLt v.timestamp w.timestamp := by
  have hinit : DedupInv [] [] := by
    refine ⟨List.nodup_nil, ?_, ?_⟩ <;> intro p hp <;> simp at hp
  have hinvG := dedupFold_inv (vs.filter (fun v => decide (0 < v.mmsi))) [] [] hinit
  have hinvA := dedupFold_inv vs [] [] hinit
  simp only [List.nil_append] at hinvG hinvA
  refine ⟨?_, ?_, ?_, ?_⟩
  · intro k
    rw [deduplicateVessels, guarded_fold_eq]
    exact at_most_one_key hinvG.1 (fun p hp => (hinvG.2.1 p hp).1) k
  · intro v hv
    rw [deduplicateVessels, guarded_fold_eq] at hv
    rcases List.mem_map.mp hv with ⟨p, hp, rfl⟩
    obtain ⟨hpk, hpp, hpmax⟩ := hinvG.2.1 p hp
    have hvmem := List.mem_filter.mp hpp
    refine ⟨hvmem.1, ?_⟩
    intro w hw hwm
    have hwpos : (0 : Nat) < w.mmsi := by
      have : (0 : Nat) < p.2.mmsi := by simpa using hvmem.2
      omega
    exact hpmax w (List.mem_filter.mpr ⟨hw, by simpa using hwpos⟩) (hwm.trans hpk)
  · intro k
    rw [dedupAggressive]
    exact at_most_one_key hinvA.1 (fun p hp => (hinvA.2.1 p hp).1) k
  · intro v hv
    rw [dedupAggressive] at hv
    rcases List.mem_map.mp hv with ⟨p, hp, rfl⟩
    obtain ⟨hpk, hpp, hpmax⟩ := hinvA.2.1 p hp
    exact ⟨hpp, fun w hw hwm => hpmax w hw (hwm.trans hpk)⟩

/-- Witness for C6: of the two reports for MMSI 5, both paths retain exactly the one
with the later timestamp, and it is not older than either input report. -/
theorem dedup_latest_per_mmsi_witness :
    demoPVLater ∈ deduplicateVessels demoPVs
    ∧ (demoPVLater ∈ demoPVs
      ∧ ∀ w ∈ demoPVs, w.mmsi = demoPVLater.mmsi →
          ¬ tsLt demoPVLater.timestamp w.timestamp)
    ∧ ((deduplicateVessels demoPVs).filter (fun v => v.mmsi == 5)).length ≤ 1 := by
  have hmem : demoPVLater ∈ deduplicateVessels demoPVs := by decide
  exact ⟨hmem, (dedup_latest_per_mmsi demoPVs).2.1 _ hmem,
    (dedup_latest_per_mmsi demoPVs).1 5⟩

end AisNest
